import Mathlib

/-!
# Verification of the concert-ticket-api reservation core

Shallow embedding of the Go sources of `concert-ticket-api`:

* `internal/model` (`concert.go`, booking model): the `Concert` and `Booking`
  records and the `IsBookingOpen` / `HasAvailableTickets` predicates.
* `internal/repository/postgres` (`concert_repository.go`, booking repository):
  the store adapters.  The database is modelled as an explicit `DB` state;
  each SQL statement becomes a pure state transformer.  A statement executed
  on the connection pool (`r.db`) commits immediately; a statement executed on
  a `tx` handle is staged and lands only at `tx.Commit()`, which the embedding
  renders by returning the original state on every error path of a
  transactional function.
* `internal/service` (booking service, concert service): the coordinators,
  including the optimistic-retry loop of `BookTickets`.
* the REST handler (`concert_handler.go`) and gRPC server update paths, which
  differ in how they populate `available_tickets` on update.

`time.Time` values are modelled as integers (nanoseconds since the epoch);
`time.Now()` becomes an explicit `now` parameter.  `time.Sleep` durations are
recorded (in milliseconds) instead of elapsing.  The float64 `price` field
never enters any property and is only read by the sign test in
`validateConcert`; it is modelled as an `Int` so that the whole state is
decidable.
-/

namespace ConcertApi

/-- `model.BookingStatus`: `confirmed`, `cancelled` and the reserved `pending`. -/
inductive BookingStatus where
  | confirmed
  | cancelled
  | pending
deriving DecidableEq, Repr

/-- `model.Concert`.  Times are integer timestamps. -/
structure Concert where
  id : Int
  name : String
  artist : String
  venue : String
  concertDate : Int
  totalTickets : Int
  availableTickets : Int
  price : Int
  bookingStartTime : Int
  bookingEndTime : Int
  version : Int
  createdAt : Int
  updatedAt : Int
deriving DecidableEq, Repr

/-- `Concert.IsBookingOpen`: `now.After(start) && now.Before(end)` — both
comparisons strict. -/
def Concert.isBookingOpen (now : Int) (c : Concert) : Bool :=
  decide (c.bookingStartTime < now) && decide (now < c.bookingEndTime)

/-- `Concert.HasAvailableTickets`. -/
def Concert.hasAvailableTickets (c : Concert) (count : Int) : Bool :=
  decide (c.availableTickets ≥ count)

/-- `model.Booking`. -/
structure Booking where
  id : Int
  concertID : Int
  userID : String
  ticketCount : Int
  bookingTime : Int
  status : BookingStatus
  createdAt : Int
  updatedAt : Int
deriving DecidableEq, Repr

/-- `model.BookingRequest`. -/
structure BookingRequest where
  concertID : Int
  userID : String
  ticketCount : Int
deriving DecidableEq, Repr

/-- The sentinel errors of `pkg/errors` plus the two wrapping shapes the
booking flow produces: `invalidInput` is `ErrInvalidInput(msg)` and
`wrapped msg cause` is `fmt.Errorf(msg+": %w", cause)`; `wrappedNil msg` is
the same with a nil wrapped error. -/
inductive Err where
  | notFound
  | unauthorized
  | forbidden
  | internalServer
  | optimisticLockFailed
  | updateFailed
  | insufficientTickets
  | bookingClosed
  | bookingAlreadyCancelled
  | invalidInput (msg : String)
  | wrapped (msg : String) (cause : Err)
  | wrappedNil (msg : String)
deriving DecidableEq, Repr

/-- `errors.Is`: value equality, else follow the `Unwrap` chain. -/
def Err.errIs : Err → Err → Bool
  | .wrapped msg cause, target =>
      decide (Err.wrapped msg cause = target) || cause.errIs target
  | e, target => decide (e = target)

/-- The database state: the `concerts` and `bookings` tables plus the two
`SERIAL` sequences. -/
structure DB where
  concerts : List Concert
  bookings : List Booking
  nextConcertId : Int
  nextBookingId : Int
deriving DecidableEq, Repr

/-- `SELECT ... FROM concerts WHERE id = $1` (first matching row). -/
def findConcert (db : DB) (id : Int) : Option Concert :=
  db.concerts.find? (fun c => decide (c.id = id))

/-- `SELECT ... FROM bookings WHERE id = $1` (first matching row). -/
def findBooking (db : DB) (id : Int) : Option Booking :=
  db.bookings.find? (fun b => decide (b.id = id))

/-- `concertRepository.GetByID`: point read, `ErrNotFound` on no rows. -/
def concertGetByID (db : DB) (id : Int) : Except Err Concert :=
  match findConcert db id with
  | none => .error .notFound
  | some c => .ok c

/-- `concertRepository.GetForUpdate`: `SELECT ... FOR UPDATE`.  The row lock
itself is invisible in the sequential embedding; the read is the same point
read, `ErrNotFound` on no rows. -/
def concertGetForUpdate (db : DB) (id : Int) : Except Err Concert :=
  match findConcert db id with
  | none => .error .notFound
  | some c => .ok c

/-- `bookingRepository.GetByID`. -/
def bookingGetByID (db : DB) (id : Int) : Except Err Booking :=
  match findBooking db id with
  | none => .error .notFound
  | some b => .ok b

/-- `concertRepository.Update`: one `UPDATE ... WHERE id = $10 AND
version = $11` on the pool connection.  Every column of the row is set from
the caller's struct, `version` is bumped, and zero affected rows is
`ErrOptimisticLockFailed`.  On success the caller's struct gets `Version++`
(the function returns it). -/
def concertUpdate (now : Int) (db : DB) (c : Concert) : DB × Except Err Concert :=
  if db.concerts.any (fun x => decide (x.id = c.id) && decide (x.version = c.version)) then
    let concerts' := db.concerts.map (fun x =>
      if x.id = c.id ∧ x.version = c.version then
        { x with
            name := c.name, artist := c.artist, venue := c.venue,
            concertDate := c.concertDate, totalTickets := c.totalTickets,
            availableTickets := c.availableTickets, price := c.price,
            bookingStartTime := c.bookingStartTime, bookingEndTime := c.bookingEndTime,
            version := x.version + 1, updatedAt := now }
      else x)
    ({ db with concerts := concerts' }, .ok { c with version := c.version + 1 })
  else
    (db, .error .optimisticLockFailed)

/-- `bookingRepository.Update`: `UPDATE bookings SET ... WHERE id = $5` on the
pool connection; no version guard and no affected-rows check, so it always
reports success. -/
def bookingUpdate (now : Int) (db : DB) (b : Booking) : DB :=
  { db with
      bookings := db.bookings.map (fun x =>
        if x.id = b.id then
          { x with
              concertID := b.concertID, userID := b.userID,
              ticketCount := b.ticketCount, status := b.status, updatedAt := now }
        else x) }

/-- `concertRepository.Create`: `INSERT INTO concerts (...) RETURNING *`.
The serial sequence assigns the id, `version` takes its column default 1 and
the timestamps default to now. -/
def concertCreate (now : Int) (db : DB) (c : Concert) : DB × Concert :=
  let c' := { c with
      id := db.nextConcertId, version := 1, createdAt := now, updatedAt := now }
  ({ db with
      concerts := db.concerts ++ [c'],
      nextConcertId := db.nextConcertId + 1 }, c')

/-- `bookingRepository.CreateWithTicketUpdate`: one transaction that locks the
concert row, checks `version = concertVersion`, re-checks the booking window
and availability, decrements `available_tickets`, bumps `version`, and
inserts the booking row (whose `booking_time`, `created_at`, `updated_at`
take their column defaults and whose id comes from the serial sequence).
All writes are staged on the `tx`; every error path rolls back, so the
returned state is the input state on every error. -/
def createWithTicketUpdate (now : Int) (db : DB) (b : Booking) (concertVersion : Int) :
    DB × Except Err Booking :=
  match findConcert db b.concertID with
  | none => (db, .error .notFound)
  | some c =>
    if c.version ≠ concertVersion then
      (db, .error .optimisticLockFailed)
    else if ¬ c.isBookingOpen now then
      (db, .error .bookingClosed)
    else if c.availableTickets < b.ticketCount then
      (db, .error .insufficientTickets)
    else
      let concerts' := db.concerts.map (fun x =>
        if x.id = b.concertID then
          { x with
              availableTickets := x.availableTickets - b.ticketCount,
              version := x.version + 1, updatedAt := now }
        else x)
      let b' := { b with
          id := db.nextBookingId, bookingTime := now, createdAt := now, updatedAt := now }
      ({ db with
          concerts := concerts',
          bookings := db.bookings ++ [b'],
          nextBookingId := db.nextBookingId + 1 }, .ok b')

/-! ## Booking service (`internal/service`, booking service file) -/

/-- `validateBookingRequest`. -/
def validateBookingRequest (req : BookingRequest) : Option Err :=
  if req.concertID ≤ 0 then some (.invalidInput "concert_id is required")
  else if req.userID = "" then some (.invalidInput "user_id is required")
  else if req.ticketCount ≤ 0 then some (.invalidInput "ticket_count must be positive")
  else if req.ticketCount > 10 then some (.invalidInput "cannot book more than 10 tickets at once")
  else none

/-- The `bookingService` struct (the repositories are the ambient `DB`). -/
structure BookingService where
  maxRetries : Int
deriving DecidableEq, Repr

/-- `NewBookingService`: a nonpositive `maxRetries` falls back to the
default 3. -/
def newBookingService (maxRetries : Int) : BookingService :=
  if maxRetries ≤ 0 then { maxRetries := 3 } else { maxRetries := maxRetries }

/-- The terminal error built after the retry loop:
`fmt.Errorf("failed to book tickets after %d attempts: %w", maxRetries, lastErr)`. -/
def exhaustedErr (maxRetries : Int) (lastErr : Option Err) : Err :=
  match lastErr with
  | some e => .wrapped ("failed to book tickets after " ++ toString maxRetries ++ " attempts") e
  | none => .wrappedNil ("failed to book tickets after " ++ toString maxRetries ++ " attempts")

/-- Outcome of the retry loop of `BookTickets`: final state, the durations (in
milliseconds) passed to `time.Sleep`, how many times the locked phase ran,
and the result. -/
structure LoopOutcome (σ : Type) where
  state : σ
  sleepsMs : List Nat
  attemptsUsed : Nat
  result : Except Err Booking
deriving Repr

/-- The body of `for attempt := 0; attempt < maxRetries; attempt++ { ... }`
in `BookTickets`, generic in the state the locked phase acts on.  `phase
attempt s` is one execution of the locked phase (GetForUpdate, the re-checks
and `CreateWithTicketUpdate`).  A result satisfying
`errors.Is(err, ErrOptimisticLockFailed)` triggers
`time.Sleep((attempt+1) * 10ms)` and another attempt; success and every other
error return immediately; falling off the loop returns the exhausted error. -/
def bookRetryLoopAux {σ : Type} (maxRetries : Int)
    (phase : Nat → σ → σ × Except Err Booking) :
    (fuel : Nat) → (attempt : Nat) → (lastErr : Option Err) → (s : σ) →
      (sleeps : List Nat) → (attempts : Nat) → LoopOutcome σ
  | 0, _, lastErr, s, sleeps, attempts =>
      ⟨s, sleeps, attempts, .error (exhaustedErr maxRetries lastErr)⟩
  | fuel + 1, attempt, lastErr, s, sleeps, attempts =>
      match phase attempt s with
      | (s', .ok b) => ⟨s', sleeps, attempts + 1, .ok b⟩
      | (s', .error e) =>
        if e.errIs .optimisticLockFailed then
          bookRetryLoopAux maxRetries phase fuel (attempt + 1) (some e) s'
            (sleeps ++ [(attempt + 1) * 10]) (attempts + 1)
        else
          ⟨s', sleeps, attempts + 1, .error e⟩

/-- The retry loop started at attempt 0 with `maxRetries` iterations
available (`maxRetries.toNat` because the loop guard `attempt < maxRetries`
admits no iteration for nonpositive values). -/
def bookRetryLoop {σ : Type} (maxRetries : Int)
    (phase : Nat → σ → σ × Except Err Booking) (s : σ) : LoopOutcome σ :=
  bookRetryLoopAux maxRetries phase maxRetries.toNat 0 none s [] 0

/-- One execution of the locked phase of `BookTickets`: `GetForUpdate`, the
in-lock window and availability re-checks, then `CreateWithTicketUpdate`
with the version just observed. -/
def bookLockedPhase (now : Int) (req : BookingRequest) (booking : Booking) :
    Nat → DB → DB × Except Err Booking :=
  fun _attempt db =>
    match concertGetForUpdate db req.concertID with
    | .error e => (db, .error e)
    | .ok c =>
      if ¬ c.isBookingOpen now then (db, .error .bookingClosed)
      else if ¬ c.hasAvailableTickets req.ticketCount then (db, .error .insufficientTickets)
      else createWithTicketUpdate now db booking c.version

/-- `bookingService.BookTickets`: validation, point read, pre-checks, then
the retry loop around the locked phase. -/
def bookTickets (now : Int) (svc : BookingService) (db : DB) (req : BookingRequest) :
    DB × Except Err Booking :=
  match validateBookingRequest req with
  | some e => (db, .error e)
  | none =>
    match concertGetByID db req.concertID with
    | .error e => (db, .error e)
    | .ok concert =>
      if ¬ concert.isBookingOpen now then (db, .error .bookingClosed)
      else if ¬ concert.hasAvailableTickets req.ticketCount then
        (db, .error .insufficientTickets)
      else
        let booking : Booking :=
          { id := 0, concertID := req.concertID, userID := req.userID,
            ticketCount := req.ticketCount, bookingTime := now,
            status := .confirmed, createdAt := 0, updatedAt := 0 }
        let out := bookRetryLoop svc.maxRetries (bookLockedPhase now req booking) db
        (out.state, out.result)

/-- `bookingService.CancelBooking`.  The service opens a `tx` with `BeginTx`
and later rolls it back or commits it, but every repository call below runs
on the pool connection (`r.db`), not on `tx` — so each statement commits
immediately and the rollback undoes nothing.  The embedding therefore applies
each repository write to the state directly and returns the state reached so
far on every error path. -/
def cancelBooking (now : Int) (db : DB) (bookingID : Int) (userID : String) :
    DB × Except Err Unit :=
  match bookingGetByID db bookingID with
  | .error e => (db, .error e)
  | .ok booking =>
    if booking.userID ≠ userID then (db, .error .unauthorized)
    else if booking.status = .cancelled then (db, .error .bookingAlreadyCancelled)
    else
      let booking' := { booking with status := BookingStatus.cancelled }
      let db1 := bookingUpdate now db booking'
      match concertGetForUpdate db1 booking.concertID with
      | .error e => (db1, .error e)
      | .ok c =>
        let c' := { c with availableTickets := c.availableTickets + booking.ticketCount }
        match concertUpdate now db1 c' with
        | (db2, .error e) => (db2, .error e)
        | (db2, .ok _) => (db2, .ok ())

/-! ## Concert service (`internal/service`, concert service file) -/

/-- `validateConcert`.  `time.Time.IsZero` becomes `= 0`; the
future-start check applies only to new concerts (`ID == 0`). -/
def validateConcert (now : Int) (c : Concert) : Option Err :=
  if c.name = "" then some (.invalidInput "name is required")
  else if c.artist = "" then some (.invalidInput "artist is required")
  else if c.venue = "" then some (.invalidInput "venue is required")
  else if c.concertDate = 0 then some (.invalidInput "concert date is required")
  else if c.totalTickets ≤ 0 then some (.invalidInput "total tickets must be positive")
  else if c.price < 0 then some (.invalidInput "price cannot be negative")
  else if c.bookingStartTime = 0 then some (.invalidInput "booking start time is required")
  else if c.bookingEndTime = 0 then some (.invalidInput "booking end time is required")
  else if c.bookingEndTime < c.bookingStartTime then
    some (.invalidInput "booking end time must be after booking start time")
  else if c.bookingStartTime < now ∧ c.id = 0 then
    some (.invalidInput "booking start time must be in the future for new concerts")
  else none

/-- `concertService.CreateConcert`: validate, overwrite `AvailableTickets`
with `TotalTickets`, insert. -/
def createConcert (now : Int) (db : DB) (c : Concert) : DB × Except Err Concert :=
  match validateConcert now c with
  | some e => (db, .error e)
  | none =>
    let c1 := { c with availableTickets := c.totalTickets }
    let (db', c') := concertCreate now db c1
    (db', .ok c')

/-- `concertService.UpdateConcert`: validate, existence check, then the
version-guarded repository update (which writes every column from the
caller's struct, `available_tickets` included). -/
def updateConcert (now : Int) (db : DB) (c : Concert) : DB × Except Err Unit :=
  match validateConcert now c with
  | some e => (db, .error e)
  | none =>
    match concertGetByID db c.id with
    | .error e => (db, .error e)
    | .ok _ =>
      match concertUpdate now db c with
      | (db', .error e) => (db', .error e)
      | (db', .ok _) => (db', .ok ())

/-- `ConcertHandler.UpdateConcert` (REST): the request body is bound straight
into a `model.Concert` — `available_tickets` included — the path id is
forced, and the service update runs on that struct. -/
def restUpdateConcert (now : Int) (db : DB) (id : Int) (body : Concert) :
    DB × Except Err Unit :=
  updateConcert now db { body with id := id }

/-- The fields of the gRPC `UpdateConcertRequest` the server reads. -/
structure UpdateConcertRequest where
  id : Int
  name : String
  artist : String
  venue : String
  concertDate : Int
  totalTickets : Int
  price : Int
  bookingStartTime : Int
  bookingEndTime : Int
  version : Int
deriving DecidableEq, Repr

/-- `Server.UpdateConcert` (gRPC): builds the concert from the request,
fetches the current record and overwrites `AvailableTickets` with the stored
value before calling the service update. -/
def grpcUpdateConcert (now : Int) (db : DB) (req : UpdateConcertRequest) :
    DB × Except Err Unit :=
  let concert : Concert :=
    { id := req.id, name := req.name, artist := req.artist, venue := req.venue,
      concertDate := req.concertDate, totalTickets := req.totalTickets,
      availableTickets := 0, price := req.price,
      bookingStartTime := req.bookingStartTime, bookingEndTime := req.bookingEndTime,
      version := req.version, createdAt := 0, updatedAt := 0 }
  match concertGetByID db req.id with
  | .error e => (db, .error e)
  | .ok current =>
    updateConcert now db { concert with availableTickets := current.availableTickets }

/-- A serialized trace of `CreateWithTicketUpdate` transactions against one
state: the exclusive row lock and transaction isolation mean any concurrent
execution is equivalent to running the committed transactions in some
sequential order, which this function models. -/
def runBookTxs (now : Int) (db : DB) :
    List (Booking × Int) → DB × List (Except Err Booking)
  | [] => (db, [])
  | (b, v) :: rest =>
    let (db1, r) := createWithTicketUpdate now db b v
    let (db2, rs) := runBookTxs now db1 rest
    (db2, r :: rs)

/-- The `version` column of the (first) concert row with the given id. -/
def storedVersion (db : DB) (id : Int) : Option Int :=
  (findConcert db id).map (fun c => c.version)

/-- Total `ticket_count` of the Confirmed bookings of one concert. -/
def confirmedTickets (bookings : List Booking) (cid : Int) : Int :=
  ((bookings.filter (fun b =>
    decide (b.concertID = cid) && decide (b.status = BookingStatus.confirmed))).map
      (fun b => b.ticketCount)).sum

/-- The state invariant maintained by concert creation, booking and
cancellation (the inequality — rather than an equality — on the concert
bound is what survives `CancelBooking`'s non-transactional partial
failures, which can lose returned tickets but never overdraw them). -/
structure DBInv (db : DB) : Prop where
  concertBounds : ∀ c ∈ db.concerts, 0 ≤ c.availableTickets ∧
    c.availableTickets + confirmedTickets db.bookings c.id ≤ c.totalTickets
  bookingPos : ∀ b ∈ db.bookings, 0 < b.ticketCount
  bookingIdLt : ∀ b ∈ db.bookings, b.id < db.nextBookingId
  bookingNoPending : ∀ b ∈ db.bookings, b.status ≠ .pending
  bookingConcertExists : ∀ b ∈ db.bookings, ∃ c ∈ db.concerts, c.id = b.concertID
  bookingIdsNodup : (db.bookings.map (fun b => b.id)).Nodup
  concertIdLt : ∀ c ∈ db.concerts, c.id < db.nextConcertId
  concertIdsNodup : (db.concerts.map (fun c => c.id)).Nodup

/-- States reachable from the empty store through the service operations
that the spec's inventory invariant survives: concert creation, booking and
cancellation. -/
inductive Reachable : DB → Prop where
  | init : Reachable { concerts := [], bookings := [], nextConcertId := 1, nextBookingId := 1 }
  | create (now : Int) (c : Concert) (db db' : DB) (r : Except Err Concert) :
      Reachable db → createConcert now db c = (db', r) → Reachable db'
  | book (now : Int) (svc : BookingService) (req : BookingRequest) (db db' : DB)
      (r : Except Err Booking) :
      Reachable db → bookTickets now svc db req = (db', r) → Reachable db'
  | cancel (now : Int) (bid : Int) (uid : String) (db db' : DB) (r : Except Err Unit) :
      Reachable db → cancelBooking now db bid uid = (db', r) → Reachable db'

/-! ## General lemmas -/

theorem find?_map_congr {α : Type} (f : α → α) (p : α → Bool)
    (h : ∀ x, p (f x) = p x) :
    ∀ l : List α, (l.map f).find? p = (l.find? p).map f := by
  intro l
  induction l with
  | nil => rfl
  | cons x xs ih =>
    simp only [List.map_cons, List.find?]
    rw [h x]
    cases hp : p x
    · simpa using ih
    · rfl

/-- The row-update function of the ticket decrement preserves ids, so the
point read commutes with it. -/
theorem findConcert_map_pres (db : DB) (X Y : Int) (f : Concert → Concert)
    (hid : ∀ c, (f c).id = c.id) :
    findConcert { db with concerts := db.concerts.map f } Y =
      (findConcert db Y).map f := by
  unfold findConcert
  exact find?_map_congr f _ (fun c => by simp [hid c]) db.concerts

theorem bookRetryLoopAux_attemptsUsed_le {σ : Type} (M : Int)
    (phase : Nat → σ → σ × Except Err Booking) :
    ∀ (fuel attempt : Nat) (lastErr : Option Err) (s : σ) (sleeps : List Nat)
      (attempts : Nat),
      (bookRetryLoopAux M phase fuel attempt lastErr s sleeps attempts).attemptsUsed ≤
        attempts + fuel := by
  intro fuel
  induction fuel with
  | zero =>
    intro attempt lastErr s sleeps attempts
    simp [bookRetryLoopAux]
  | succ f ih =>
    intro attempt lastErr s sleeps attempts
    rw [bookRetryLoopAux]
    rcases hphase : phase attempt s with ⟨s', r⟩
    cases r with
    | ok b =>
      show (LoopOutcome.mk s' sleeps (attempts + 1) (Except.ok b)).attemptsUsed ≤ _
      dsimp only
      omega
    | error e =>
      by_cases hc : e.errIs .optimisticLockFailed = true
      · simp only [hc, if_true]
        exact le_trans
          (ih (attempt + 1) (some e) s' (sleeps ++ [(attempt + 1) * 10]) (attempts + 1))
          (by omega)
      · simp only [hc, if_false]
        show (LoopOutcome.mk s' sleeps (attempts + 1) (Except.error e)).attemptsUsed ≤ _
        dsimp only
        omega

theorem bookRetryLoopAux_first_nonconflict {σ : Type} (M : Int)
    (phase : Nat → σ → σ × Except Err Booking) (e : Err)
    (he : e.errIs .optimisticLockFailed = false) :
    ∀ (k fuel attempt : Nat) (lastErr : Option Err) (s : σ) (sleeps : List Nat)
      (attempts : Nat),
      k < fuel →
      (∀ j s', attempt ≤ j → j < attempt + k →
        ∃ er, (phase j s').2 = .error er ∧ er.errIs .optimisticLockFailed = true) →
      (∀ s', (phase (attempt + k) s').2 = .error e) →
      (bookRetryLoopAux M phase fuel attempt lastErr s sleeps attempts).result = .error e ∧
      (bookRetryLoopAux M phase fuel attempt lastErr s sleeps attempts).attemptsUsed =
        attempts + k + 1 ∧
      (bookRetryLoopAux M phase fuel attempt lastErr s sleeps attempts).sleepsMs =
        sleeps ++ (List.range' (attempt + 1) k).map (fun i => i * 10) := by
  have hcond : ¬ (e.errIs Err.optimisticLockFailed = true) := by
    rw [he]; simp
  intro k
  induction k with
  | zero =>
    intro fuel attempt lastErr s sleeps attempts hk _ hlast
    obtain ⟨f, rfl⟩ : ∃ f, fuel = f + 1 := ⟨fuel - 1, by omega⟩
    have h := hlast s
    rw [Nat.add_zero] at h
    rw [bookRetryLoopAux]
    rcases hphase : phase attempt s with ⟨s', r⟩
    rw [hphase] at h
    obtain rfl : r = .error e := h
    dsimp only
    rw [if_neg hcond]
    exact ⟨rfl, rfl, by simp⟩
  | succ k ih =>
    intro fuel attempt lastErr s sleeps attempts hk hpre hlast
    obtain ⟨f, rfl⟩ : ∃ f, fuel = f + 1 := ⟨fuel - 1, by omega⟩
    rw [bookRetryLoopAux]
    rcases hphase : phase attempt s with ⟨s', r⟩
    obtain ⟨er, her, herc⟩ := hpre attempt s le_rfl (by omega)
    rw [hphase] at her
    obtain rfl : r = .error er := her
    dsimp only
    rw [if_pos herc]
    have h1 : ∀ j s', attempt + 1 ≤ j → j < attempt + 1 + k →
        ∃ er, (phase j s').2 = .error er ∧ er.errIs .optimisticLockFailed = true := by
      intro j s'' hj1 hj2
      exact hpre j s'' (by omega) (by omega)
    have h2 : ∀ s', (phase (attempt + 1 + k) s').2 = .error e := by
      intro s''
      have h3 := hlast s''
      have harith : attempt + (k + 1) = attempt + 1 + k := by omega
      rw [harith] at h3
      exact h3
    obtain ⟨hr, ha, hs⟩ := ih f (attempt + 1) (some er) s'
      (sleeps ++ [(attempt + 1) * 10]) (attempts + 1) (by omega) h1 h2
    refine ⟨hr, by rw [ha]; omega, ?_⟩
    rw [hs, List.range'_succ]
    simp [List.append_assoc]

theorem bookRetryLoopAux_all_conflicts {σ : Type} (M : Int)
    (phase : Nat → σ → σ × Except Err Booking) (ec : Nat → Err) :
    ∀ (fuel attempt : Nat) (lastErr : Option Err) (s : σ) (sleeps : List Nat)
      (attempts : Nat),
      1 ≤ fuel →
      (∀ j s', attempt ≤ j → j < attempt + fuel →
        (phase j s').2 = .error (ec j) ∧ (ec j).errIs .optimisticLockFailed = true) →
      (bookRetryLoopAux M phase fuel attempt lastErr s sleeps attempts).result =
        .error (exhaustedErr M (some (ec (attempt + fuel - 1)))) ∧
      (bookRetryLoopAux M phase fuel attempt lastErr s sleeps attempts).attemptsUsed =
        attempts + fuel ∧
      (bookRetryLoopAux M phase fuel attempt lastErr s sleeps attempts).sleepsMs =
        sleeps ++ (List.range' (attempt + 1) fuel).map (fun i => i * 10) := by
  intro fuel
  induction fuel with
  | zero =>
    intro attempt lastErr s sleeps attempts hfuel _
    omega
  | succ f ih =>
    intro attempt lastErr s sleeps attempts _ hconf
    rw [bookRetryLoopAux]
    rcases hphase : phase attempt s with ⟨s', r⟩
    obtain ⟨her, herc⟩ := hconf attempt s le_rfl (by omega)
    rw [hphase] at her
    obtain rfl : r = .error (ec attempt) := her
    dsimp only
    rw [if_pos herc]
    cases Nat.eq_zero_or_pos f with
    | inl hf0 =>
      subst hf0
      rw [bookRetryLoopAux]
      refine ⟨?_, rfl, by simp [List.range'_succ]⟩
      have : attempt + 1 - 1 = attempt := by omega
      rw [this]
    | inr hfpos =>
      have h1 : ∀ j s', attempt + 1 ≤ j → j < attempt + 1 + f →
          (phase j s').2 = .error (ec j) ∧ (ec j).errIs .optimisticLockFailed = true := by
        intro j s'' hj1 hj2
        exact hconf j s'' (by omega) (by omega)
      obtain ⟨hr, ha, hs⟩ := ih (attempt + 1) (some (ec attempt)) s'
        (sleeps ++ [(attempt + 1) * 10]) (attempts + 1) hfpos h1
      refine ⟨?_, by rw [ha]; omega, ?_⟩
      · rw [hr]
        have : attempt + 1 + f - 1 = attempt + (f + 1) - 1 := by omega
        rw [this]
      · rw [hs, List.range'_succ]
        simp [List.append_assoc]

theorem isBookingOpen_iff (now : Int) (c : Concert) :
    c.isBookingOpen now = true ↔
      (c.bookingStartTime < now ∧ now < c.bookingEndTime) := by
  simp [Concert.isBookingOpen]

theorem bookRetryLoop_phase0_ok {σ : Type} (M : Int)
    (phase : Nat → σ → σ × Except Err Booking) (s s' : σ) (b : Booking)
    (h : phase 0 s = (s', .ok b)) (hM : M.toNat ≠ 0) :
    bookRetryLoop M phase s = ⟨s', [], 1, .ok b⟩ := by
  obtain ⟨f, hf⟩ : ∃ f, M.toNat = f + 1 := ⟨M.toNat - 1, by omega⟩
  unfold bookRetryLoop
  rw [hf, bookRetryLoopAux, h]

theorem bookRetryLoop_no_fuel {σ : Type} (M : Int)
    (phase : Nat → σ → σ × Except Err Booking) (s : σ) (hM : M.toNat = 0) :
    bookRetryLoop M phase s = ⟨s, [], 0, .error (exhaustedErr M none)⟩ := by
  unfold bookRetryLoop
  rw [hM, bookRetryLoopAux]

/-- If the concert struct handed to the repository `Update` carries the
stored available count, the stored available count does not change. -/
theorem concertUpdate_preserves_available (now : Int) (db : DB) (c : Concert)
    (db' : DB) (r : Except Err Concert)
    (hupd : concertUpdate now db c = (db', r))
    (current : Concert) (hfind : findConcert db c.id = some current)
    (hav : c.availableTickets = current.availableTickets) :
    (findConcert db' c.id).map Concert.availableTickets =
      (findConcert db c.id).map Concert.availableTickets := by
  unfold concertUpdate at hupd
  by_cases hany : db.concerts.any (fun x =>
      decide (x.id = c.id) && decide (x.version = c.version)) = true
  · rw [if_pos hany] at hupd
    injection hupd with h1 h2
    subst h1
    unfold findConcert
    rw [find?_map_congr _ _ (fun x => by split <;> rfl) db.concerts]
    rw [show db.concerts.find? (fun x => decide (x.id = c.id)) = some current from hfind]
    simp only [Option.map_some']
    split
    · simp only [hav]
    · rfl
  · rw [if_neg hany] at hupd
    injection hupd with h1 h2
    subst h1
    rfl

/-- Full case split for `CreateWithTicketUpdate`: either some check fails and
the state is returned untouched (rollback), or the version matched, the
window was open, the tickets sufficed, and the committed state is the input
state with the decrement, the version bump and the inserted booking. -/
theorem createWTU_cases (now : Int) (db : DB) (b : Booking) (v : Int) :
    (∃ e, createWithTicketUpdate now db b v = (db, .error e)) ∨
    (∃ c, findConcert db b.concertID = some c ∧ c.version = v ∧
      c.isBookingOpen now = true ∧ ¬ (c.availableTickets < b.ticketCount) ∧
      createWithTicketUpdate now db b v =
        ({ db with
            concerts := db.concerts.map (fun x =>
              if x.id = b.concertID then
                { x with
                    availableTickets := x.availableTickets - b.ticketCount,
                    version := x.version + 1, updatedAt := now }
              else x),
            bookings := db.bookings ++ [{ b with
              id := db.nextBookingId, bookingTime := now,
              createdAt := now, updatedAt := now }],
            nextBookingId := db.nextBookingId + 1 },
          .ok { b with
            id := db.nextBookingId, bookingTime := now,
            createdAt := now, updatedAt := now })) := by
  cases hf : findConcert db b.concertID with
  | none =>
    exact .inl ⟨.notFound, by simp only [createWithTicketUpdate, hf]⟩
  | some c =>
    by_cases hv : c.version ≠ v
    · exact .inl ⟨.optimisticLockFailed, by
        simp only [createWithTicketUpdate, hf]; rw [if_pos hv]⟩
    · by_cases hopen : ¬ c.isBookingOpen now
      · exact .inl ⟨.bookingClosed, by
          simp only [createWithTicketUpdate, hf]; rw [if_neg hv, if_pos hopen]⟩
      · by_cases havail : c.availableTickets < b.ticketCount
        · exact .inl ⟨.insufficientTickets, by
            simp only [createWithTicketUpdate, hf]; rw [if_neg hv, if_neg hopen, if_pos havail]⟩
        · refine .inr ⟨c, rfl, not_not.mp hv, by
            revert hopen; cases c.isBookingOpen now <;> simp, havail, by
            simp only [createWithTicketUpdate, hf]; rw [if_neg hv, if_neg hopen, if_neg havail]⟩

/-- A successful `CreateWithTicketUpdate` both observed the stored version
(`= v`) and bumped it to `v + 1`. -/
theorem createWTU_ok_versions (now : Int) (db : DB) (b : Booking) (v : Int)
    (db' : DB) (b' : Booking)
    (h : createWithTicketUpdate now db b v = (db', .ok b')) :
    storedVersion db b.concertID = some v ∧
    storedVersion db' b.concertID = some (v + 1) := by
  rcases createWTU_cases now db b v with ⟨e, heq⟩ | ⟨c, hf, hcv, -, -, heq⟩
  · rw [heq] at h
    exact absurd (congrArg Prod.snd h) (by simp)
  · rw [heq] at h
    obtain ⟨rfl, -⟩ := Prod.mk.injEq .. ▸ h
    have hcid : c.id = b.concertID := by simpa using List.find?_some hf
    constructor
    · unfold storedVersion
      rw [hf]
      simp [hcv]
    · unfold storedVersion findConcert
      rw [find?_map_congr _ _ (fun x => by split <;> rfl) db.concerts]
      rw [show db.concerts.find? (fun x => decide (x.id = b.concertID)) = some c from hf]
      simp [hcid, hcv]

/-- Any `CreateWithTicketUpdate` outcome can only leave a concert's stored
version in place (failure) or increase it (commit). -/
theorem createWTU_version_mono (now : Int) (db : DB) (b : Booking) (v : Int)
    (db' : DB) (r : Except Err Booking)
    (h : createWithTicketUpdate now db b v = (db', r))
    (X w : Int) (hw : storedVersion db X = some w) :
    ∃ w', storedVersion db' X = some w' ∧ w ≤ w' := by
  rcases createWTU_cases now db b v with ⟨e, heq⟩ | ⟨c, hf, -, -, -, heq⟩
  · rw [heq] at h
    obtain ⟨rfl, -⟩ := Prod.mk.injEq .. ▸ h
    exact ⟨w, hw, le_refl w⟩
  · rw [heq] at h
    obtain ⟨rfl, -⟩ := Prod.mk.injEq .. ▸ h
    unfold storedVersion findConcert at hw ⊢
    rw [find?_map_congr _ _ (fun x => by split <;> rfl) db.concerts]
    cases hfx : db.concerts.find? (fun x => decide (x.id = X)) with
    | none => rw [hfx] at hw; cases hw
    | some cx =>
      rw [hfx] at hw
      obtain rfl : cx.version = w := by simpa using hw
      simp only [Option.map_some']
      by_cases hxid : cx.id = b.concertID
      · refine ⟨cx.version + 1, ?_, by omega⟩
        simp [hxid]
      · refine ⟨cx.version, ?_, le_refl _⟩
        simp [hxid]

/-- Along a serialized transaction trace, a later successful decrement on a
concert observed at least the stored version current when the trace started. -/
theorem runBookTxs_ok_version_ge (now : Int) :
    ∀ (txs : List (Booking × Int)) (db : DB) (j : Nat) (b2 : Booking) (v2 : Int)
      (r2 : Booking) (w : Int),
      txs.get? j = some (b2, v2) →
      (runBookTxs now db txs).2.get? j = some (.ok r2) →
      storedVersion db b2.concertID = some w →
      w ≤ v2 := by
  intro txs
  induction txs with
  | nil =>
    intro db j b2 v2 r2 w hj _ _
    simp at hj
  | cons hd t ih =>
    rcases hd with ⟨b, v⟩
    intro db j b2 v2 r2 w hj hr hw
    rcases hstep : createWithTicketUpdate now db b v with ⟨db1, r⟩
    rcases hrest : runBookTxs now db1 t with ⟨db2, rs⟩
    have hrun : runBookTxs now db ((b, v) :: t) = (db2, r :: rs) := by
      simp only [runBookTxs, hstep, hrest]
    rw [hrun] at hr
    cases j with
    | zero =>
      simp only [List.get?_cons_zero, Option.some.injEq, Prod.mk.injEq] at hj hr
      obtain ⟨rfl, rfl⟩ := hj
      obtain rfl : r = .ok r2 := hr
      obtain ⟨hobs, -⟩ := createWTU_ok_versions now db b v db1 r2 hstep
      rw [hobs] at hw
      obtain rfl : v = w := by simpa using hw
      exact le_refl v
    | succ j' =>
      simp only [List.get?_cons_succ] at hj hr
      obtain ⟨w', hw', hww'⟩ := createWTU_version_mono now db b v db1 r hstep
        b2.concertID w hw
      have hle := ih db1 j' b2 v2 r2 w' hj (by rw [hrest]; exact hr) hw'
      omega

/-- Claim C2: in any serialized order of `CreateWithTicketUpdate`
transactions against one state (the `FOR UPDATE` row lock and transaction
isolation serialize concurrent transactions on a record), two committed
transactions on the same concert never observed the same version: the
observed versions of successful transactions grow strictly along the order. -/
theorem c2_version_total_order (now : Int) (db : DB) (txs : List (Booking × Int))
    (i j : Nat) (b1 : Booking) (v1 : Int) (b2 : Booking) (v2 : Int) (r1 r2 : Booking)
    (hij : i < j)
    (hi : txs.get? i = some (b1, v1))
    (hj : txs.get? j = some (b2, v2))
    (hr1 : (runBookTxs now db txs).2.get? i = some (.ok r1))
    (hr2 : (runBookTxs now db txs).2.get? j = some (.ok r2))
    (hsame : b1.concertID = b2.concertID) :
    v1 < v2 := by
  induction txs generalizing db i j with
  | nil => simp at hi
  | cons hd t ih =>
    rcases hd with ⟨b, v⟩
    rcases hstep : createWithTicketUpdate now db b v with ⟨db1, r⟩
    rcases hrest : runBookTxs now db1 t with ⟨db2, rs⟩
    have hrun : runBookTxs now db ((b, v) :: t) = (db2, r :: rs) := by
      simp only [runBookTxs, hstep, hrest]
    rw [hrun] at hr1 hr2
    obtain ⟨j', rfl⟩ : ∃ j', j = j' + 1 := ⟨j - 1, by omega⟩
    simp only [List.get?_cons_succ] at hj hr2
    cases i with
    | zero =>
      simp only [List.get?_cons_zero, Option.some.injEq, Prod.mk.injEq] at hi hr1
      obtain ⟨rfl, rfl⟩ := hi
      obtain rfl : r = .ok r1 := hr1
      obtain ⟨-, hbump⟩ := createWTU_ok_versions now db b v db1 r1 hstep
      rw [hsame] at hbump
      have hge := runBookTxs_ok_version_ge now t db1 j' b2 v2 r2 (v + 1) hj
        (by rw [hrest]; exact hr2) hbump
      omega
    | succ i' =>
      simp only [List.get?_cons_succ] at hi hr1
      exact ih db1 i' j' (by omega) hi hj (by rw [hrest]; exact hr1)
        (by rw [hrest]; exact hr2)

/-- Witness for C2: two transactions that observed versions 1 and 2. -/
theorem c2_witness :
    let c : Concert := {
      id := 1, name := "n", artist := "a", venue := "v",
      concertDate := 5, totalTickets := 100, availableTickets := 100, price := 10,
      bookingStartTime := 10, bookingEndTime := 1000, version := 1,
      createdAt := 0, updatedAt := 0 }
    let db : DB := { concerts := [c], bookings := [], nextConcertId := 2, nextBookingId := 1 }
    let b : Booking := {
      id := 0, concertID := 1, userID := "u", ticketCount := 5,
      bookingTime := 50, status := .confirmed, createdAt := 0, updatedAt := 0 }
    let bk1 : Booking := { b with id := 1, bookingTime := 50, createdAt := 50, updatedAt := 50 }
    let bk2 : Booking := { b with id := 2, bookingTime := 50, createdAt := 50, updatedAt := 50 }
    (runBookTxs 50 db [(b, 1), (b, 2)]).2.get? 0 = some (.ok bk1) ∧
    (runBookTxs 50 db [(b, 1), (b, 2)]).2.get? 1 = some (.ok bk2) ∧
    (1 : Int) < 2 := by
  intro c db b bk1 bk2
  exact ⟨rfl, rfl, c2_version_total_order 50 db [(b, 1), (b, 2)] 0 1 b 1 b 2 bk1 bk2
    (by decide) rfl rfl rfl rfl rfl⟩

theorem find?_append_left_none {α : Type} (p : α → Bool) (l1 l2 : List α)
    (h : ∀ x ∈ l1, p x = false) : (l1 ++ l2).find? p = l2.find? p := by
  induction l1 with
  | nil => rfl
  | cons a t ih =>
    simp only [List.cons_append, List.find?]
    rw [h a (List.mem_cons_self a t)]
    exact ih (fun x hx => h x (List.mem_cons_of_mem a hx))

/-- If the locked phase ignores the attempt counter and leaves the state
unchanged on every error, a successful retry loop is exactly one successful
phase execution from the initial state. -/
theorem bookRetryLoopAux_ok_stable {σ : Type} (M : Int)
    (phase : Nat → σ → σ × Except Err Booking)
    (hconst : ∀ k s, phase k s = phase 0 s)
    (herr : ∀ k s s1 e, phase k s = (s1, .error e) → s1 = s) :
    ∀ (fuel attempt : Nat) (lastErr : Option Err) (s : σ) (sleeps : List Nat)
      (attempts : Nat) (s' : σ) (b : Booking),
      (bookRetryLoopAux M phase fuel attempt lastErr s sleeps attempts).result = .ok b →
      (bookRetryLoopAux M phase fuel attempt lastErr s sleeps attempts).state = s' →
      phase 0 s = (s', .ok b) := by
  intro fuel
  induction fuel with
  | zero =>
    intro attempt lastErr s sleeps attempts s' b hres _
    rw [bookRetryLoopAux] at hres
    cases hres
  | succ f ih =>
    intro attempt lastErr s sleeps attempts s' b hres hstate
    rw [bookRetryLoopAux] at hres hstate
    rcases hphase : phase attempt s with ⟨s1, r⟩
    rw [hphase] at hres hstate
    cases r with
    | ok b1 =>
      simp only [LoopOutcome.result, LoopOutcome.state] at hres hstate
      obtain rfl : b1 = b := by simpa using hres
      obtain rfl : s1 = s' := hstate
      rw [← hconst attempt s]
      exact hphase
    | error e =>
      by_cases hc : e.errIs .optimisticLockFailed = true
      · simp only [hc, if_true] at hres hstate
        obtain rfl : s1 = s := herr attempt s s1 e hphase
        exact ih (attempt + 1) (some e) s1 (sleeps ++ [(attempt + 1) * 10])
          (attempts + 1) s' b hres hstate
      · simp only [hc, if_false] at hres
        cases hres

/-- The locked phase of `BookTickets` leaves the state unchanged whenever it
reports an error (its reads are pure and `CreateWithTicketUpdate` rolls
back). -/
theorem bookLockedPhase_err_state (now : Int) (req : BookingRequest) (bk : Booking)
    (k : Nat) (db db' : DB) (e : Err)
    (h : bookLockedPhase now req bk k db = (db', .error e)) : db' = db := by
  unfold bookLockedPhase at h
  cases hfc : concertGetForUpdate db req.concertID with
  | error e' =>
    simp only [hfc] at h
    exact (Prod.mk.injEq .. ▸ h).1.symm
  | ok c =>
    simp only [hfc] at h
    by_cases hopen : ¬ c.isBookingOpen now
    · rw [if_pos hopen] at h
      exact (Prod.mk.injEq .. ▸ h).1.symm
    · rw [if_neg hopen] at h
      by_cases hav : ¬ c.hasAvailableTickets req.ticketCount
      · rw [if_pos hav] at h
        exact (Prod.mk.injEq .. ▸ h).1.symm
      · rw [if_neg hav] at h
        rcases createWTU_cases now db bk c.version with ⟨e', heq⟩ | ⟨c', -, -, -, -, heq⟩
        · rw [heq] at h
          exact (Prod.mk.injEq .. ▸ h).1.symm
        · rw [heq] at h
          exact absurd (Prod.mk.injEq .. ▸ h).2 (by simp)

/-- Shape of a successful `BookTickets` call: the request was valid, the
concert existed with enough tickets, and the committed state carries the
decrement, the version bump and the inserted Confirmed booking. -/
theorem bookTickets_ok (now : Int) (svc : BookingService) (db : DB)
    (req : BookingRequest) (db1 : DB) (bk : Booking)
    (h : bookTickets now svc db req = (db1, .ok bk)) :
    ∃ c, findConcert db req.concertID = some c ∧
      ¬ (c.availableTickets < req.ticketCount) ∧
      bk = {
        id := db.nextBookingId, concertID := req.concertID, userID := req.userID,
        ticketCount := req.ticketCount, bookingTime := now, status := .confirmed,
        createdAt := now, updatedAt := now } ∧
      db1 = { db with
        concerts := db.concerts.map (fun x =>
          if x.id = req.concertID then
            { x with
                availableTickets := x.availableTickets - req.ticketCount,
                version := x.version + 1, updatedAt := now }
          else x),
        bookings := db.bookings ++ [bk],
        nextBookingId := db.nextBookingId + 1 } := by
  cases hval : validateBookingRequest req with
  | some e =>
    simp only [bookTickets, hval] at h
    exact absurd (congrArg Prod.snd h) (by simp)
  | none =>
    cases hfc : findConcert db req.concertID with
    | none =>
      simp only [bookTickets, hval, concertGetByID, hfc] at h
      exact absurd (congrArg Prod.snd h) (by simp)
    | some c =>
      simp only [bookTickets, hval, concertGetByID, hfc] at h
      by_cases hopen : ¬ c.isBookingOpen now
      · rw [if_pos hopen] at h
        exact absurd (congrArg Prod.snd h) (by simp)
      · rw [if_neg hopen] at h
        by_cases hav : ¬ c.hasAvailableTickets req.ticketCount
        · rw [if_pos hav] at h
          exact absurd (congrArg Prod.snd h) (by simp)
        · rw [if_neg hav] at h
          have hres : (bookRetryLoop svc.maxRetries (bookLockedPhase now req
              { id := 0, concertID := req.concertID, userID := req.userID,
                ticketCount := req.ticketCount, bookingTime := now,
                status := .confirmed, createdAt := 0, updatedAt := 0 }) db).result =
              .ok bk := congrArg Prod.snd h
          have hstate : (bookRetryLoop svc.maxRetries (bookLockedPhase now req
              { id := 0, concertID := req.concertID, userID := req.userID,
                ticketCount := req.ticketCount, bookingTime := now,
                status := .confirmed, createdAt := 0, updatedAt := 0 }) db).state =
              db1 := congrArg Prod.fst h
          have hphase := bookRetryLoopAux_ok_stable svc.maxRetries
            (bookLockedPhase now req
              { id := 0, concertID := req.concertID, userID := req.userID,
                ticketCount := req.ticketCount, bookingTime := now,
                status := .confirmed, createdAt := 0, updatedAt := 0 })
            (fun k s => rfl)
            (fun k s s1 e hke => bookLockedPhase_err_state now req _ k s s1 e hke)
            svc.maxRetries.toNat 0 none db [] 0 db1 bk hres hstate
          unfold bookLockedPhase at hphase
          rw [show concertGetForUpdate db req.concertID = .ok c by
            simp [concertGetForUpdate, hfc]] at hphase
          simp only [] at hphase
          rw [if_neg hopen, if_neg hav] at hphase
          rcases createWTU_cases now db
            { id := 0, concertID := req.concertID, userID := req.userID,
              ticketCount := req.ticketCount, bookingTime := now,
              status := .confirmed, createdAt := 0, updatedAt := 0 } c.version with
            ⟨e', heq⟩ | ⟨c', hfc', -, -, hav', heq⟩
          · rw [heq] at hphase
            exact absurd (congrArg Prod.snd hphase) (by simp)
          · obtain rfl : c' = c := by
              rw [show findConcert db req.concertID = some c from hfc] at hfc'
              simpa using hfc'.symm
            rw [heq] at hphase
            obtain ⟨h1, h2⟩ := Prod.mk.injEq .. ▸ hphase
            injection h2 with h2
            subst h2
            exact ⟨c', rfl, hav', rfl, h1.symm⟩

/-- After a successful repository `Update` whose struct's version matches the
stored first row for that id, the stored row carries exactly the struct's
`available_tickets`. -/
theorem findConcert_concertUpdate_self (now : Int) (db : DB) (cc : Concert)
    (db' : DB) (cr : Concert)
    (hupd : concertUpdate now db cc = (db', .ok cr))
    (cur : Concert) (hfind : findConcert db cc.id = some cur)
    (hver : cur.version = cc.version) :
    ∃ cu, findConcert db' cc.id = some cu ∧
      cu.availableTickets = cc.availableTickets := by
  unfold concertUpdate at hupd
  by_cases hany : db.concerts.any (fun x =>
      decide (x.id = cc.id) && decide (x.version = cc.version)) = true
  · rw [if_pos hany] at hupd
    injection hupd with h1 h2
    subst h1
    have hcurid : cur.id = cc.id := by simpa using List.find?_some hfind
    refine ⟨{ cur with
        name := cc.name, artist := cc.artist, venue := cc.venue,
        concertDate := cc.concertDate, totalTickets := cc.totalTickets,
        availableTickets := cc.availableTickets, price := cc.price,
        bookingStartTime := cc.bookingStartTime, bookingEndTime := cc.bookingEndTime,
        version := cur.version + 1, updatedAt := now }, ?_, rfl⟩
    unfold findConcert
    rw [find?_map_congr _ _ (fun x => by split <;> rfl) db.concerts]
    rw [show db.concerts.find? (fun x => decide (x.id = cc.id)) = some cur from hfind]
    simp only [Option.map_some']
    rw [if_pos ⟨hcurid, hver⟩]
  · rw [if_neg hany] at hupd
    exact absurd (congrArg Prod.snd hupd) (by simp)

theorem confirmedTickets_nonneg (l : List Booking) (X : Int)
    (h : ∀ b ∈ l, 0 < b.ticketCount) : 0 ≤ confirmedTickets l X := by
  unfold confirmedTickets
  apply List.sum_nonneg
  intro x hx
  obtain ⟨b, hb, rfl⟩ := List.mem_map.mp hx
  exact le_of_lt (h b (List.mem_of_mem_filter hb))

theorem confirmedTickets_cons (a : Booking) (l : List Booking) (X : Int) :
    confirmedTickets (a :: l) X =
      (if a.concertID = X ∧ a.status = .confirmed then a.ticketCount else 0) +
        confirmedTickets l X := by
  unfold confirmedTickets
  by_cases h : a.concertID = X ∧ a.status = .confirmed
  · rw [if_pos h]
    rw [show List.filter (fun b => decide (b.concertID = X) &&
        decide (b.status = BookingStatus.confirmed)) (a :: l) =
      a :: List.filter (fun b => decide (b.concertID = X) &&
        decide (b.status = BookingStatus.confirmed)) l by
        simp [List.filter_cons, h.1, h.2]]
    simp
  · rw [if_neg h]
    rw [show List.filter (fun b => decide (b.concertID = X) &&
        decide (b.status = BookingStatus.confirmed)) (a :: l) =
      List.filter (fun b => decide (b.concertID = X) &&
        decide (b.status = BookingStatus.confirmed)) l by
        rcases not_and_or.mp h with h1 | h1 <;> simp [List.filter_cons, h1]]
    simp

theorem confirmedTickets_append_single (l : List Booking) (bb : Booking) (X : Int) :
    confirmedTickets (l ++ [bb]) X =
      confirmedTickets l X +
        (if bb.concertID = X ∧ bb.status = .confirmed then bb.ticketCount else 0) := by
  induction l with
  | nil =>
    simp only [List.nil_append]
    rw [confirmedTickets_cons]
    simp [confirmedTickets]
  | cons a t ih =>
    simp only [List.cons_append]
    rw [confirmedTickets_cons, ih, confirmedTickets_cons]
    ring

theorem confirmedTickets_eq_zero (l : List Booking) (X : Int)
    (h : ∀ b ∈ l, b.concertID ≠ X) : confirmedTickets l X = 0 := by
  unfold confirmedTickets
  rw [show List.filter (fun b => decide (b.concertID = X) &&
      decide (b.status = BookingStatus.confirmed)) l = [] from
    List.filter_eq_nil_iff.mpr (fun b hb => by simp [h b hb])]
  rfl

theorem mem_unique_of_nodup_key {α β : Type} (key : α → β) (l : List α)
    (hnd : (l.map key).Nodup) (a b : α) (ha : a ∈ l) (hb : b ∈ l)
    (hk : key a = key b) : a = b :=
  List.inj_on_of_nodup_map hnd ha hb hk

theorem map_key_eq {α β : Type} (key : α → β) (f : α → α)
    (hf : ∀ a, key (f a) = key a) (l : List α) :
    (l.map f).map key = l.map key := by
  rw [List.map_map]
  exact List.map_congr_left (fun a _ => hf a)

/-- Flipping the unique booking with `bb`'s id from Confirmed to Cancelled
(what `bookingRepo.Update` does inside `CancelBooking`) removes exactly its
ticket count from the Confirmed total of its concert and nothing else. -/
theorem confirmedTickets_map_cancel (now : Int) (l : List Booking) (bb : Booking)
    (hnd : (l.map (fun b => b.id)).Nodup) (hmem : bb ∈ l)
    (hconf : bb.status = .confirmed) (X : Int) :
    confirmedTickets (l.map (fun x =>
      if x.id = bb.id then
        { x with
            concertID := bb.concertID, userID := bb.userID,
            ticketCount := bb.ticketCount, status := BookingStatus.cancelled,
            updatedAt := now }
      else x)) X =
    confirmedTickets l X - (if bb.concertID = X then bb.ticketCount else 0) := by
  induction l with
  | nil => exact absurd hmem (List.not_mem_nil bb)
  | cons a t ih =>
    have hnd2 : (a.id :: t.map (fun b => b.id)).Nodup := by simpa using hnd
    obtain ⟨hnotin, hndt⟩ := List.nodup_cons.mp hnd2
    rw [List.map_cons, confirmedTickets_cons, confirmedTickets_cons]
    by_cases hid : a.id = bb.id
    · obtain rfl : a = bb := by
        rcases List.mem_cons.mp hmem with h | h
        · exact h.symm
        · exact absurd (show a.id ∈ t.map (fun b => b.id) from
            hid ▸ List.mem_map.mpr ⟨bb, h, rfl⟩) hnotin
      rw [if_pos rfl]
      rw [List.map_congr_left (fun x hx => if_neg (fun hxe : x.id = a.id =>
        hnotin (hxe ▸ List.mem_map.mpr ⟨x, hx, rfl⟩)))]
      simp only [List.map_id']
      rw [if_neg (by simp)]
      by_cases hX : a.concertID = X
      · rw [if_pos ⟨hX, hconf⟩, if_pos hX]
        omega
      · rw [if_neg (fun hc => hX hc.1), if_neg hX]
        omega
    · have hmembt : bb ∈ t := by
        rcases List.mem_cons.mp hmem with h | h
        · exact absurd (congrArg (fun b => Booking.id b) h.symm) hid
        · exact h
      rw [if_neg hid, ih hndt hmembt]
      omega

/-- `CreateWithTicketUpdate` preserves the state invariant when invoked with
a positive Confirmed booking (as `BookTickets` always does). -/
theorem createWTU_inv (now : Int) (db : DB) (b : Booking) (v : Int)
    (db' : DB) (r : Except Err Booking)
    (h : createWithTicketUpdate now db b v = (db', r))
    (htc : 0 < b.ticketCount) (hst : b.status = .confirmed)
    (hinv : DBInv db) : DBInv db' := by
  rcases createWTU_cases now db b v with ⟨e, heq⟩ | ⟨c, hfc, hcv, hopen, havail, heq⟩
  · rw [heq] at h
    obtain ⟨rfl, -⟩ := Prod.mk.injEq .. ▸ h
    exact hinv
  · rw [heq] at h
    obtain ⟨rfl, -⟩ := Prod.mk.injEq .. ▸ h
    have hcmem : c ∈ db.concerts := List.mem_of_find?_eq_some hfc
    have hcid : c.id = b.concertID := by simpa using List.find?_some hfc
    constructor
    · intro y hy
      obtain ⟨x, hx, rfl⟩ := List.mem_map.mp hy
      by_cases hxid : x.id = b.concertID
      · obtain rfl : x = c := mem_unique_of_nodup_key (fun cz => cz.id) db.concerts
          hinv.concertIdsNodup x c hx hcmem (by show x.id = c.id; rw [hxid, hcid])
        obtain ⟨hb1, hb2⟩ := hinv.concertBounds x hx
        rw [if_pos hxid]
        refine ⟨by dsimp only; omega, ?_⟩
        dsimp only
        rw [confirmedTickets_append_single]
        rw [if_pos ⟨hxid.symm, hst⟩]
        dsimp only
        omega
      · rw [if_neg hxid]
        obtain ⟨hb1, hb2⟩ := hinv.concertBounds x hx
        refine ⟨hb1, ?_⟩
        rw [confirmedTickets_append_single]
        rw [if_neg (fun hcond => hxid hcond.1.symm)]
        omega
    · intro bb hbb
      rcases List.mem_append.mp hbb with h1 | h1
      · exact hinv.bookingPos bb h1
      · obtain rfl : bb = _ := by simpa using h1
        exact htc
    · intro bb hbb
      rcases List.mem_append.mp hbb with h1 | h1
      · have := hinv.bookingIdLt bb h1
        dsimp only
        omega
      · obtain rfl : bb = _ := by simpa using h1
        dsimp only
        omega
    · intro bb hbb
      rcases List.mem_append.mp hbb with h1 | h1
      · exact hinv.bookingNoPending bb h1
      · obtain rfl : bb = _ := by simpa using h1
        rw [show ({ b with
            id := db.nextBookingId, bookingTime := now,
            createdAt := now, updatedAt := now } : Booking).status = b.status from rfl, hst]
        simp
    · intro bb hbb
      rcases List.mem_append.mp hbb with h1 | h1
      · obtain ⟨cx, hcx, hcxid⟩ := hinv.bookingConcertExists bb h1
        refine ⟨_, List.mem_map.mpr ⟨cx, hcx, rfl⟩, ?_⟩
        split <;> exact hcxid
      · obtain rfl : bb = _ := by simpa using h1
        refine ⟨_, List.mem_map.mpr ⟨c, hcmem, rfl⟩, ?_⟩
        split <;> exact hcid
    · rw [List.map_append, List.nodup_append]
      refine ⟨hinv.bookingIdsNodup, by simp, ?_⟩
      intro a ha hmem2
      obtain ⟨bb, hbb, rfl⟩ := List.mem_map.mp ha
      have := hinv.bookingIdLt bb hbb
      have : bb.id = db.nextBookingId := by simpa using hmem2
      omega
    · intro y hy
      obtain ⟨x, hx, rfl⟩ := List.mem_map.mp hy
      have := hinv.concertIdLt x hx
      split <;> exact this
    · rw [map_key_eq (fun cz : Concert => cz.id) (fun x : Concert =>
        if x.id = b.concertID then
          { x with
              availableTickets := x.availableTickets - b.ticketCount,
              version := x.version + 1, updatedAt := now }
        else x) (fun x => by
          show (if x.id = b.concertID then
            ({ x with
                availableTickets := x.availableTickets - b.ticketCount,
                version := x.version + 1, updatedAt := now } : Concert)
          else x).id = x.id
          split <;> rfl)]
      exact hinv.concertIdsNodup

set_option maxHeartbeats 1000000 in
theorem validateConcert_total_pos (now : Int) (c : Concert)
    (h : validateConcert now c = none) : 0 < c.totalTickets := by
  unfold validateConcert at h
  split_ifs at h <;> first
    | exact Option.noConfusion h
    | omega

set_option maxHeartbeats 1000000 in
theorem validateBookingRequest_tc_pos (req : BookingRequest)
    (h : validateBookingRequest req = none) : 0 < req.ticketCount := by
  unfold validateBookingRequest at h
  split_ifs at h <;> first
    | exact Option.noConfusion h
    | omega

theorem concertUpdate_err_state (now : Int) (db : DB) (c : Concert)
    (db' : DB) (e : Err)
    (h : concertUpdate now db c = (db', .error e)) : db' = db := by
  unfold concertUpdate at h
  by_cases hany : db.concerts.any (fun x =>
      decide (x.id = c.id) && decide (x.version = c.version)) = true
  · rw [if_pos hany] at h
    exact absurd (congrArg Prod.snd h) (by simp)
  · rw [if_neg hany] at h
    exact (Prod.mk.injEq .. ▸ h).1.symm

/-- `CreateConcert` preserves the state invariant. -/
theorem createConcert_inv (now : Int) (db : DB) (c : Concert)
    (db' : DB) (r : Except Err Concert)
    (h : createConcert now db c = (db', r)) (hinv : DBInv db) : DBInv db' := by
  cases hval : validateConcert now c with
  | some e =>
    simp only [createConcert, hval] at h
    obtain ⟨rfl, -⟩ := Prod.mk.injEq .. ▸ h
    exact hinv
  | none =>
    simp only [createConcert, hval, concertCreate] at h
    obtain ⟨rfl, -⟩ := Prod.mk.injEq .. ▸ h
    have htot := validateConcert_total_pos now c hval
    constructor
    · intro y hy
      rcases List.mem_append.mp hy with h1 | h1
      · exact hinv.concertBounds y h1
      · obtain rfl : y = _ := by simpa using h1
        refine ⟨by dsimp only; omega, ?_⟩
        dsimp only
        rw [confirmedTickets_eq_zero db.bookings db.nextConcertId (fun bb hbb => by
          obtain ⟨cx, hcx, hcxid⟩ := hinv.bookingConcertExists bb hbb
          have := hinv.concertIdLt cx hcx
          omega)]
        omega
    · exact fun bb hbb => hinv.bookingPos bb hbb
    · exact fun bb hbb => hinv.bookingIdLt bb hbb
    · exact fun bb hbb => hinv.bookingNoPending bb hbb
    · intro bb hbb
      obtain ⟨cx, hcx, hcxid⟩ := hinv.bookingConcertExists bb hbb
      exact ⟨cx, List.mem_append.mpr (.inl hcx), hcxid⟩
    · exact hinv.bookingIdsNodup
    · intro y hy
      rcases List.mem_append.mp hy with h1 | h1
      · have := hinv.concertIdLt y h1
        dsimp only
        omega
      · obtain rfl : y = _ := by simpa using h1
        dsimp only
        omega
    · rw [List.map_append, List.nodup_append]
      refine ⟨hinv.concertIdsNodup, by simp, ?_⟩
      intro a ha hmem2
      obtain ⟨cx, hcx, rfl⟩ := List.mem_map.mp ha
      have h3 := hinv.concertIdLt cx hcx
      have h4 : cx.id = db.nextConcertId := by simpa using hmem2
      omega

theorem bookRetryLoopAux_preserves {σ : Type} (P : σ → Prop) (M : Int)
    (phase : Nat → σ → σ × Except Err Booking)
    (hP : ∀ k s, P s → P (phase k s).1) :
    ∀ (fuel attempt : Nat) (lastErr : Option Err) (s : σ) (sleeps : List Nat)
      (attempts : Nat), P s →
      P (bookRetryLoopAux M phase fuel attempt lastErr s sleeps attempts).state := by
  intro fuel
  induction fuel with
  | zero =>
    intro attempt lastErr s sleeps attempts hs
    rw [bookRetryLoopAux]
    exact hs
  | succ f ih =>
    intro attempt lastErr s sleeps attempts hs
    rw [bookRetryLoopAux]
    rcases hphase : phase attempt s with ⟨s1, r⟩
    have hs1 : P s1 := by
      have h2 := hP attempt s hs
      rw [hphase] at h2
      exact h2
    cases r with
    | ok b => exact hs1
    | error e =>
      by_cases hc : e.errIs .optimisticLockFailed = true
      · simp only [hc, if_true]
        exact ih (attempt + 1) (some e) s1 (sleeps ++ [(attempt + 1) * 10])
          (attempts + 1) hs1
      · simp only [hc, if_false]
        exact hs1

theorem bookLockedPhase_inv (now : Int) (req : BookingRequest) (bk : Booking)
    (k : Nat) (db : DB)
    (htc : 0 < bk.ticketCount) (hst : bk.status = .confirmed)
    (hinv : DBInv db) : DBInv (bookLockedPhase now req bk k db).1 := by
  unfold bookLockedPhase
  cases hfc : concertGetForUpdate db req.concertID with
  | error e => exact hinv
  | ok c =>
    dsimp only
    by_cases hopen : ¬ c.isBookingOpen now
    · rw [if_pos hopen]
      exact hinv
    · rw [if_neg hopen]
      by_cases hav : ¬ c.hasAvailableTickets req.ticketCount
      · rw [if_pos hav]
        exact hinv
      · rw [if_neg hav]
        rcases hstep : createWithTicketUpdate now db bk c.version with ⟨dbx, rx⟩
        exact createWTU_inv now db bk c.version dbx rx hstep htc hst hinv

/-- `BookTickets` preserves the state invariant. -/
theorem bookTickets_inv (now : Int) (svc : BookingService) (db : DB)
    (req : BookingRequest) (db' : DB) (r : Except Err Booking)
    (h : bookTickets now svc db req = (db', r)) (hinv : DBInv db) : DBInv db' := by
  cases hval : validateBookingRequest req with
  | some e =>
    simp only [bookTickets, hval] at h
    obtain ⟨rfl, -⟩ := Prod.mk.injEq .. ▸ h
    exact hinv
  | none =>
    have htc := validateBookingRequest_tc_pos req hval
    cases hfc : findConcert db req.concertID with
    | none =>
      simp only [bookTickets, hval, concertGetByID, hfc] at h
      obtain ⟨rfl, -⟩ := Prod.mk.injEq .. ▸ h
      exact hinv
    | some c =>
      simp only [bookTickets, hval, concertGetByID, hfc] at h
      by_cases hopen : ¬ c.isBookingOpen now
      · rw [if_pos hopen] at h
        obtain ⟨rfl, -⟩ := Prod.mk.injEq .. ▸ h
        exact hinv
      · rw [if_neg hopen] at h
        by_cases hav : ¬ c.hasAvailableTickets req.ticketCount
        · rw [if_pos hav] at h
          obtain ⟨rfl, -⟩ := Prod.mk.injEq .. ▸ h
          exact hinv
        · rw [if_neg hav] at h
          obtain rfl : _ = db' := congrArg Prod.fst h
          exact bookRetryLoopAux_preserves DBInv svc.maxRetries _
            (fun k s hs => bookLockedPhase_inv now req _ k s htc rfl hs)
            svc.maxRetries.toNat 0 none db [] 0 hinv

theorem concertGetForUpdate_ok (db : DB) (id : Int) (c : Concert)
    (h : concertGetForUpdate db id = .ok c) : findConcert db id = some c := by
  unfold concertGetForUpdate at h
  cases hf : findConcert db id with
  | none =>
    rw [hf] at h
    exact Except.noConfusion h
  | some c' =>
    simp only [hf] at h
    injection h with h
    rw [h]

/-- The repository concert `Update` preserves the invariant provided the
written struct respects the bounds against every stored row it can hit. -/
theorem concertUpdate_inv (now : Int) (db : DB) (cw : Concert)
    (db' : DB) (r : Except Err Concert)
    (h : concertUpdate now db cw = (db', r))
    (hinv : DBInv db)
    (hbound : ∀ cur ∈ db.concerts, cur.id = cw.id → cur.version = cw.version →
      0 ≤ cw.availableTickets ∧
      cw.availableTickets + confirmedTickets db.bookings cur.id ≤ cw.totalTickets) :
    DBInv db' := by
  unfold concertUpdate at h
  by_cases hany : db.concerts.any (fun x =>
      decide (x.id = cw.id) && decide (x.version = cw.version)) = true
  · rw [if_pos hany] at h
    injection h with h1 h2
    subst h1
    constructor
    · intro y hy
      obtain ⟨x, hx, rfl⟩ := List.mem_map.mp hy
      by_cases hcond : x.id = cw.id ∧ x.version = cw.version
      · rw [if_pos hcond]
        obtain ⟨hb1, hb2⟩ := hbound x hx hcond.1 hcond.2
        exact ⟨hb1, hb2⟩
      · rw [if_neg hcond]
        exact hinv.concertBounds x hx
    · exact fun bb hbb => hinv.bookingPos bb hbb
    · exact fun bb hbb => hinv.bookingIdLt bb hbb
    · exact fun bb hbb => hinv.bookingNoPending bb hbb
    · intro bb hbb
      obtain ⟨cx, hcx, hcxid⟩ := hinv.bookingConcertExists bb hbb
      refine ⟨_, List.mem_map.mpr ⟨cx, hcx, rfl⟩, ?_⟩
      split <;> exact hcxid
    · exact hinv.bookingIdsNodup
    · intro y hy
      obtain ⟨x, hx, rfl⟩ := List.mem_map.mp hy
      have := hinv.concertIdLt x hx
      split <;> exact this
    · rw [map_key_eq (fun cz : Concert => cz.id) (fun x : Concert =>
        if x.id = cw.id ∧ x.version = cw.version then
          { x with
              name := cw.name, artist := cw.artist, venue := cw.venue,
              concertDate := cw.concertDate, totalTickets := cw.totalTickets,
              availableTickets := cw.availableTickets, price := cw.price,
              bookingStartTime := cw.bookingStartTime, bookingEndTime := cw.bookingEndTime,
              version := x.version + 1, updatedAt := now }
        else x) (fun x => by
          show (if x.id = cw.id ∧ x.version = cw.version then
            ({ x with
                name := cw.name, artist := cw.artist, venue := cw.venue,
                concertDate := cw.concertDate, totalTickets := cw.totalTickets,
                availableTickets := cw.availableTickets, price := cw.price,
                bookingStartTime := cw.bookingStartTime, bookingEndTime := cw.bookingEndTime,
                version := x.version + 1, updatedAt := now } : Concert)
          else x).id = x.id
          split <;> rfl)]
      exact hinv.concertIdsNodup
  · rw [if_neg hany] at h
    obtain ⟨rfl, -⟩ := Prod.mk.injEq .. ▸ h
    exact hinv

/-- `CancelBooking` preserves the state invariant — including across its
non-transactional partial-failure paths, which can lose returned tickets but
never overdraw the inventory. -/
theorem cancelBooking_inv (now : Int) (db : DB) (bid : Int) (uid : String)
    (db' : DB) (r : Except Err Unit)
    (h : cancelBooking now db bid uid = (db', r)) (hinv : DBInv db) : DBInv db' := by
  cases hfb : findBooking db bid with
  | none =>
    simp only [cancelBooking, bookingGetByID, hfb] at h
    obtain ⟨rfl, -⟩ := Prod.mk.injEq .. ▸ h
    exact hinv
  | some bb =>
    simp only [cancelBooking, bookingGetByID, hfb] at h
    by_cases huser : bb.userID ≠ uid
    · rw [if_pos huser] at h
      obtain ⟨rfl, -⟩ := Prod.mk.injEq .. ▸ h
      exact hinv
    · rw [if_neg huser] at h
      by_cases hcan : bb.status = .cancelled
      · rw [if_pos hcan] at h
        obtain ⟨rfl, -⟩ := Prod.mk.injEq .. ▸ h
        exact hinv
      · rw [if_neg hcan] at h
        have hbbmem : bb ∈ db.bookings := List.mem_of_find?_eq_some hfb
        have hconf : bb.status = .confirmed := by
          cases hbs : bb.status
          · rfl
          · exact absurd hbs hcan
          · exact absurd hbs (hinv.bookingNoPending bb hbbmem)
        have hflip : ∀ X, confirmedTickets (db.bookings.map (fun x =>
            if x.id = bb.id then
              { x with
                  concertID := bb.concertID, userID := bb.userID,
                  ticketCount := bb.ticketCount, status := BookingStatus.cancelled,
                  updatedAt := now }
            else x)) X =
            confirmedTickets db.bookings X -
              (if bb.concertID = X then bb.ticketCount else 0) :=
          fun X => confirmedTickets_map_cancel now db.bookings bb
            hinv.bookingIdsNodup hbbmem hconf X
        have htcpos := hinv.bookingPos bb hbbmem
        have hinv1 : DBInv (bookingUpdate now db { bb with status := BookingStatus.cancelled }) := by
          constructor
          · intro y hy
            obtain ⟨hb1, hb2⟩ := hinv.concertBounds y hy
            refine ⟨hb1, ?_⟩
            show y.availableTickets + confirmedTickets (db.bookings.map _) y.id ≤
              y.totalTickets
            rw [hflip y.id]
            by_cases hX : bb.concertID = y.id
            · rw [if_pos hX]
              omega
            · rw [if_neg hX]
              omega
          · intro y hy
            obtain ⟨x, hx, rfl⟩ := List.mem_map.mp hy
            have h2 := hinv.bookingPos x hx
            split
            · exact htcpos
            · exact h2
          · intro y hy
            obtain ⟨x, hx, rfl⟩ := List.mem_map.mp hy
            have h2 := hinv.bookingIdLt x hx
            split <;> exact h2
          · intro y hy
            obtain ⟨x, hx, rfl⟩ := List.mem_map.mp hy
            split
            · simp
            · exact hinv.bookingNoPending x hx
          · intro y hy
            obtain ⟨x, hx, rfl⟩ := List.mem_map.mp hy
            split
            · exact hinv.bookingConcertExists bb hbbmem
            · exact hinv.bookingConcertExists x hx
          · show ((db.bookings.map (fun x : Booking =>
              if x.id = bb.id then
                { x with
                    concertID := bb.concertID, userID := bb.userID,
                    ticketCount := bb.ticketCount, status := BookingStatus.cancelled,
                    updatedAt := now }
              else x)).map (fun bz : Booking => bz.id)).Nodup
            rw [map_key_eq (fun bz : Booking => bz.id) (fun x : Booking =>
              if x.id = bb.id then
                { x with
                    concertID := bb.concertID, userID := bb.userID,
                    ticketCount := bb.ticketCount, status := BookingStatus.cancelled,
                    updatedAt := now }
              else x) (fun x => by
                show (if x.id = bb.id then
                  ({ x with
                      concertID := bb.concertID, userID := bb.userID,
                      ticketCount := bb.ticketCount, status := BookingStatus.cancelled,
                      updatedAt := now } : Booking)
                else x).id = x.id
                split <;> rfl)]
            exact hinv.bookingIdsNodup
          · exact fun cz hcz => hinv.concertIdLt cz hcz
          · exact hinv.concertIdsNodup
        split at h
        · obtain ⟨rfl, -⟩ := Prod.mk.injEq .. ▸ h
          exact hinv1
        · rename_i cc hgfu
          split at h
          · rename_i dz e heq
            obtain ⟨rfl, -⟩ := Prod.mk.injEq .. ▸ h
            obtain rfl := concertUpdate_err_state now _ _ dz e heq
            exact hinv1
          · rename_i dz val heq
            obtain ⟨rfl, -⟩ := Prod.mk.injEq .. ▸ h
            have hfind1 : findConcert db bb.concertID = some cc :=
              concertGetForUpdate_ok _ bb.concertID cc hgfu
            have hccmem : cc ∈ db.concerts := List.mem_of_find?_eq_some hfind1
            have hccid : cc.id = bb.concertID := by
              simpa using List.find?_some hfind1
            refine concertUpdate_inv now _ _ dz (.ok val) heq hinv1 ?_
            intro cur hcur hcurid hcurver
            have hcurmem : cur ∈ db.concerts := hcur
            obtain rfl : cur = cc := mem_unique_of_nodup_key (fun cz : Concert => cz.id)
              db.concerts hinv.concertIdsNodup cur cc hcurmem hccmem
              (show cur.id = cc.id from hcurid)
            obtain ⟨hb1, hb2⟩ := hinv.concertBounds cur hcurmem
            constructor
            · show (0 : Int) ≤ cur.availableTickets + bb.ticketCount
              omega
            · show cur.availableTickets + bb.ticketCount +
                confirmedTickets (db.bookings.map _) cur.id ≤ cur.totalTickets
              rw [hflip cur.id]
              rw [if_pos hccid.symm]
              omega

/-! ## Claim theorems -/

/-- Claim C1: `CreateWithTicketUpdate` is all-or-nothing: on success the
booking row is inserted with status Confirmed, the concert's available count
drops by the booking's ticket count and its version rises by one; on any
error the returned state is exactly the input state. -/
theorem c1_createWithTicketUpdate_atomic
    (now : Int) (db : DB) (b : Booking) (v : Int) (db' : DB) (r : Except Err Booking)
    (hst : b.status = .confirmed)
    (hrun : createWithTicketUpdate now db b v = (db', r)) :
    (∀ e, r = .error e → db' = db) ∧
    (∀ b', r = .ok b' →
      ∃ c, findConcert db b.concertID = some c ∧ c.version = v ∧
        b'.status = .confirmed ∧ b'.ticketCount = b.ticketCount ∧
        db'.bookings = db.bookings ++ [b'] ∧
        findConcert db' b.concertID =
          some { c with
                   availableTickets := c.availableTickets - b.ticketCount,
                   version := c.version + 1, updatedAt := now }) := by
  cases hf : findConcert db b.concertID with
  | none =>
    simp only [createWithTicketUpdate, hf] at hrun
    obtain ⟨rfl, rfl⟩ := Prod.mk.injEq .. ▸ hrun
    exact ⟨fun e _ => rfl, fun b' hb => by cases hb⟩
  | some c =>
    simp only [createWithTicketUpdate, hf] at hrun
    by_cases hv : c.version ≠ v
    · rw [if_pos hv] at hrun
      obtain ⟨rfl, rfl⟩ := Prod.mk.injEq .. ▸ hrun
      exact ⟨fun e _ => rfl, fun b' hb => by cases hb⟩
    · rw [if_neg hv] at hrun
      by_cases hopen : ¬ c.isBookingOpen now
      · rw [if_pos hopen] at hrun
        obtain ⟨rfl, rfl⟩ := Prod.mk.injEq .. ▸ hrun
        exact ⟨fun e _ => rfl, fun b' hb => by cases hb⟩
      · rw [if_neg hopen] at hrun
        by_cases havail : c.availableTickets < b.ticketCount
        · rw [if_pos havail] at hrun
          obtain ⟨rfl, rfl⟩ := Prod.mk.injEq .. ▸ hrun
          exact ⟨fun e _ => rfl, fun b' hb => by cases hb⟩
        · rw [if_neg havail] at hrun
          obtain ⟨rfl, rfl⟩ := Prod.mk.injEq .. ▸ hrun
          refine ⟨fun e he => Except.noConfusion he, fun b' hb => ?_⟩
          obtain rfl : ({ b with
              id := db.nextBookingId, bookingTime := now,
              createdAt := now, updatedAt := now } : Booking) = b' := by
            cases hb; rfl
          refine ⟨c, rfl, not_not.mp hv, hst, rfl, rfl, ?_⟩
          unfold findConcert
          dsimp only
          rw [find?_map_congr _ _ (fun x => by split <;> rfl) db.concerts]
          rw [show db.concerts.find? (fun x => decide (x.id = b.concertID)) = some c from hf]
          have hcid : c.id = b.concertID := by
            simpa using List.find?_some hf
          simp [hcid]

/-- Witness for C1 at a concrete input. -/
theorem c1_witness :
    let c : Concert := {
      id := 1, name := "n", artist := "a", venue := "v",
      concertDate := 5, totalTickets := 100, availableTickets := 100, price := 10,
      bookingStartTime := 10, bookingEndTime := 1000, version := 1,
      createdAt := 0, updatedAt := 0 }
    let db : DB := { concerts := [c], bookings := [], nextConcertId := 2, nextBookingId := 1 }
    let b : Booking := {
      id := 0, concertID := 1, userID := "u", ticketCount := 5,
      bookingTime := 50, status := .confirmed, createdAt := 0, updatedAt := 0 }
    (∀ e, (createWithTicketUpdate 50 db b 1).2 = .error e →
        (createWithTicketUpdate 50 db b 1).1 = db) ∧
    (∀ b', (createWithTicketUpdate 50 db b 1).2 = .ok b' →
      ∃ cc, findConcert db b.concertID = some cc ∧ cc.version = 1 ∧
        b'.status = .confirmed ∧ b'.ticketCount = b.ticketCount ∧
        (createWithTicketUpdate 50 db b 1).1.bookings = db.bookings ++ [b'] ∧
        findConcert (createWithTicketUpdate 50 db b 1).1 b.concertID =
          some { cc with
                   availableTickets := cc.availableTickets - b.ticketCount,
                   version := cc.version + 1, updatedAt := 50 }) := by
  exact c1_createWithTicketUpdate_atomic 50 _ _ 1 _ _ (by decide) rfl

/-- Claim C10: cancelling an already-cancelled booking by its owner fails
with `AlreadyCancelled` and leaves the whole state — in particular the
concert's `available` and `version` — untouched. -/
theorem c10_cancel_already_cancelled
    (now : Int) (db : DB) (bookingID : Int) (userID : String) (b : Booking)
    (hfind : findBooking db bookingID = some b)
    (huser : b.userID = userID)
    (hstatus : b.status = .cancelled) :
    cancelBooking now db bookingID userID = (db, .error .bookingAlreadyCancelled) := by
  unfold cancelBooking bookingGetByID
  rw [hfind]
  simp [huser, hstatus]

/-- Witness for C10 at a concrete input. -/
theorem c10_witness :
    let b : Booking := {
      id := 7, concertID := 1, userID := "alice", ticketCount := 5,
      bookingTime := 50, status := .cancelled, createdAt := 0, updatedAt := 0 }
    let db : DB := { concerts := [], bookings := [b], nextConcertId := 1, nextBookingId := 8 }
    cancelBooking 60 db 7 "alice" = (db, .error .bookingAlreadyCancelled) := by
  exact c10_cancel_already_cancelled 60 _ 7 "alice" _ rfl rfl rfl

/-- Claim C5: the retry policy of `BookTickets`.  `NewBookingService` turns a
nonpositive `maxRetries` into the default 3 and keeps a positive one; the
locked phase runs at most `maxRetries` times; and when the first `k` attempts
fail with errors matching `ErrOptimisticLockFailed` and attempt `k` fails
with any other error, that error is returned at once — after exactly `k + 1`
phase executions, having slept `(attempt + 1) * 10` milliseconds before each
of the `k` retries and never after the terminal error. -/
theorem c5_retry_policy :
    (∀ n : Int, n ≤ 0 → (newBookingService n).maxRetries = 3) ∧
    (∀ n : Int, 0 < n → (newBookingService n).maxRetries = n) ∧
    (∀ (σ : Type) (phase : Nat → σ → σ × Except Err Booking) (M : Int) (s : σ),
      (bookRetryLoop M phase s).attemptsUsed ≤ M.toNat) ∧
    (∀ (σ : Type) (phase : Nat → σ → σ × Except Err Booking) (M : Int) (s : σ)
      (k : Nat) (e : Err),
      k < M.toNat →
      (∀ j s', j < k →
        ∃ er, (phase j s').2 = .error er ∧ er.errIs .optimisticLockFailed = true) →
      (∀ s', (phase k s').2 = .error e) →
      e.errIs .optimisticLockFailed = false →
      (bookRetryLoop M phase s).result = .error e ∧
      (bookRetryLoop M phase s).attemptsUsed = k + 1 ∧
      (bookRetryLoop M phase s).sleepsMs =
        (List.range k).map (fun i => (i + 1) * 10)) := by
  refine ⟨?_, ?_, ?_, ?_⟩
  · intro n hn
    simp [newBookingService, hn]
  · intro n hn
    rw [newBookingService, if_neg (by omega)]
  · intro σ phase M s
    simpa using bookRetryLoopAux_attemptsUsed_le M phase M.toNat 0 none s [] 0
  · intro σ phase M s k e hk hpre hlast he
    have h1 : ∀ j s', 0 ≤ j → j < 0 + k →
        ∃ er, (phase j s').2 = .error er ∧ er.errIs .optimisticLockFailed = true := by
      intro j s' _ hj
      exact hpre j s' (by omega)
    have h2 : ∀ s', (phase (0 + k) s').2 = .error e := by
      intro s'
      simpa using hlast s'
    obtain ⟨hr, ha, hs⟩ :=
      bookRetryLoopAux_first_nonconflict M phase e he k M.toNat 0 none s [] 0 hk h1 h2
    unfold bookRetryLoop
    refine ⟨hr, by simpa using ha, ?_⟩
    rw [hs]
    rw [List.range'_eq_map_range, List.map_map]
    simp [Nat.add_comm]

/-- Witness for C5 at a concrete oracle: one conflict, then a terminal
`BookingClosed`, under the defaulted retry budget. -/
theorem c5_witness :
    (newBookingService (-5)).maxRetries = 3 ∧
    ((bookRetryLoop 3 (fun j (_ : Unit) =>
        ((), if j = 0 then Except.error Err.optimisticLockFailed
          else Except.error Err.bookingClosed)) ()).result =
        .error Err.bookingClosed ∧
      (bookRetryLoop 3 (fun j (_ : Unit) =>
        ((), if j = 0 then Except.error Err.optimisticLockFailed
          else Except.error Err.bookingClosed)) ()).attemptsUsed = 1 + 1 ∧
      (bookRetryLoop 3 (fun j (_ : Unit) =>
        ((), if j = 0 then Except.error Err.optimisticLockFailed
          else Except.error Err.bookingClosed)) ()).sleepsMs =
        (List.range 1).map (fun i => (i + 1) * 10)) := by
  refine ⟨c5_retry_policy.1 (-5) (by decide), ?_⟩
  exact c5_retry_policy.2.2.2 Unit _ 3 () 1 Err.bookingClosed (by decide)
    (fun j s' hj => ⟨Err.optimisticLockFailed, by
      obtain rfl : j = 0 := by omega
      exact ⟨rfl, by decide⟩⟩)
    (fun s' => rfl) (by decide)

/-- Claim C6: exhausting all attempts on repeated version conflicts returns
the wrapping error `fmt.Errorf("failed to book tickets after %d attempts:
%w", maxRetries, lastErr)` — a value distinct from the bare
`ErrOptimisticLockFailed` sentinel — whose wrapped cause is the error of the
last conflicting attempt. -/
theorem c6_exhausted_error {σ : Type} (phase : Nat → σ → σ × Except Err Booking)
    (M : Int) (s : σ) (ec : Nat → Err)
    (hM : 1 ≤ M.toNat)
    (hconf : ∀ j s', j < M.toNat →
      (phase j s').2 = .error (ec j) ∧ (ec j).errIs .optimisticLockFailed = true) :
    (bookRetryLoop M phase s).result =
      .error (Err.wrapped ("failed to book tickets after " ++ toString M ++ " attempts")
        (ec (M.toNat - 1))) ∧
    (bookRetryLoop M phase s).result ≠ .error Err.optimisticLockFailed := by
  have h1 : ∀ j s', 0 ≤ j → j < 0 + M.toNat →
      (phase j s').2 = .error (ec j) ∧ (ec j).errIs .optimisticLockFailed = true := by
    intro j s' _ hj
    exact hconf j s' (by omega)
  obtain ⟨hr, -, -⟩ :=
    bookRetryLoopAux_all_conflicts M phase ec M.toNat 0 none s [] 0 hM h1
  rw [show (0 : Nat) + M.toNat - 1 = M.toNat - 1 by omega] at hr
  unfold bookRetryLoop
  refine ⟨by rw [hr]; rfl, by rw [hr]; simp [exhaustedErr]⟩

/-- Witness for C6: three straight conflicts under `maxRetries = 3`. -/
theorem c6_witness :
    (bookRetryLoop 3 (fun _ (_ : Unit) =>
        ((), Except.error Err.optimisticLockFailed)) ()).result =
      .error (Err.wrapped ("failed to book tickets after " ++ toString (3 : Int) ++ " attempts")
        Err.optimisticLockFailed) ∧
    (bookRetryLoop 3 (fun _ (_ : Unit) =>
        ((), Except.error Err.optimisticLockFailed)) ()).result ≠
      .error Err.optimisticLockFailed := by
  exact c6_exhausted_error
    (fun _ (_ : Unit) => ((), Except.error Err.optimisticLockFailed)) 3 ()
    (fun _ => Err.optimisticLockFailed) (by decide)
    (fun j s' hj => ⟨rfl, rfl⟩)

/-- Counterexample to claim C7 as stated: `IsBookingOpen` uses the strict
`now.After(start) && now.Before(end)`, so a book call made exactly at
`bookingWindowStart` (here `now = 10 = bookingStartTime`) does fail with
`BookingClosed`, contradicting the claimed closed-interval behaviour. -/
theorem c7_counterexample :
    let c : Concert := {
      id := 1, name := "n", artist := "a", venue := "v",
      concertDate := 5, totalTickets := 100, availableTickets := 100, price := 10,
      bookingStartTime := 10, bookingEndTime := 1000, version := 1,
      createdAt := 0, updatedAt := 0 }
    let db : DB := { concerts := [c], bookings := [], nextConcertId := 2, nextBookingId := 1 }
    let req : BookingRequest := { concertID := 1, userID := "u", ticketCount := 1 }
    c.bookingStartTime ≤ (10 : Int) ∧ (10 : Int) ≤ c.bookingEndTime ∧
      (bookTickets 10 (newBookingService 3) db req).2 = .error .bookingClosed := by
  exact ⟨by decide, by decide, rfl⟩

/-- Claim C7 (amended): for a valid request on an existing concert, the book
call fails with `BookingClosed` exactly when the current time lies outside
the OPEN interval `(bookingWindowStart, bookingWindowEnd)`; calls made
exactly at either endpoint therefore do fail with `BookingClosed`. -/
theorem c7_booking_closed_iff (now : Int) (svc : BookingService) (db : DB)
    (req : BookingRequest) (c : Concert)
    (hval : validateBookingRequest req = none)
    (hc : findConcert db req.concertID = some c) :
    (bookTickets now svc db req).2 = .error .bookingClosed ↔
      ¬ (c.bookingStartTime < now ∧ now < c.bookingEndTime) := by
  simp only [bookTickets, hval, concertGetByID, hc]
  by_cases hopen : c.isBookingOpen now = true
  · rw [if_neg (by simp [hopen])]
    have hrhs : ¬ ¬ (c.bookingStartTime < now ∧ now < c.bookingEndTime) :=
      not_not.mpr ((isBookingOpen_iff now c).mp hopen)
    by_cases hav : c.hasAvailableTickets req.ticketCount = true
    · rw [if_neg (by simp [hav])]
      have hphase :
          ∃ s' b', bookLockedPhase now req
            { id := 0, concertID := req.concertID, userID := req.userID,
              ticketCount := req.ticketCount, bookingTime := now,
              status := .confirmed, createdAt := 0, updatedAt := 0 } 0 db = (s', .ok b') := by
        unfold bookLockedPhase concertGetForUpdate
        simp only [hc]
        rw [if_neg (by simp [hopen]), if_neg (by simp [hav])]
        unfold createWithTicketUpdate
        simp only [hc]
        rw [if_neg (by simp), if_neg (by simp [hopen]),
          if_neg (by simpa [Concert.hasAvailableTickets, not_lt] using hav)]
        exact ⟨_, _, rfl⟩
      obtain ⟨s', b', hphase⟩ := hphase
      by_cases hM : svc.maxRetries.toNat = 0
      · rw [bookRetryLoop_no_fuel _ _ _ hM]
        simp only [LoopOutcome.result]
        constructor
        · intro h
          cases svc.maxRetries.toNat <;> simp [exhaustedErr] at h
        · intro h
          exact absurd ((isBookingOpen_iff now c).mp hopen) h
      · rw [bookRetryLoop_phase0_ok _ _ _ _ _ hphase hM]
        simp only [LoopOutcome.result]
        constructor
        · intro h
          cases h
        · intro h
          exact absurd ((isBookingOpen_iff now c).mp hopen) h
    · rw [if_pos (by simp [hav])]
      constructor
      · intro h
        cases h
      · intro h
        exact absurd ((isBookingOpen_iff now c).mp hopen) h
  · rw [if_pos (by simp [hopen])]
    constructor
    · intro _
      intro hcontra
      exact hopen ((isBookingOpen_iff now c).mpr hcontra)
    · intro _
      rfl

/-- Witness for C7 (amended) at a concrete input with the window open. -/
theorem c7_witness :
    let c : Concert := {
      id := 1, name := "n", artist := "a", venue := "v",
      concertDate := 5, totalTickets := 100, availableTickets := 100, price := 10,
      bookingStartTime := 10, bookingEndTime := 1000, version := 1,
      createdAt := 0, updatedAt := 0 }
    let db : DB := { concerts := [c], bookings := [], nextConcertId := 2, nextBookingId := 1 }
    let req : BookingRequest := { concertID := 1, userID := "u", ticketCount := 1 }
    ((bookTickets 2000 (newBookingService 3) db req).2 = .error .bookingClosed ↔
      ¬ (c.bookingStartTime < (2000 : Int) ∧ (2000 : Int) < c.bookingEndTime)) := by
  exact c7_booking_closed_iff 2000 (newBookingService 3) _ _ _ rfl rfl

/-- Claim C4 is violated by the code: `CancelBooking` opens a `tx` with
`BeginTx` and defers a rollback, but `bookingRepo.Update` and
`concertRepo.Update` run on the pool connection, outside the transaction.
When a later step fails (here: the booking's concert row is absent, so
`GetForUpdate` returns `ErrNotFound` — in production the same happens when
the guarded concert update hits a version conflict), the call returns an
error, yet the booking stays `Cancelled` while the tickets were never
returned to inventory. -/
theorem c4_cancel_partial_persist :
    let b : Booking := {
      id := 7, concertID := 99, userID := "alice", ticketCount := 5,
      bookingTime := 50, status := .confirmed, createdAt := 0, updatedAt := 0 }
    let db : DB := { concerts := [], bookings := [b], nextConcertId := 1, nextBookingId := 8 }
    (cancelBooking 60 db 7 "alice").2 = .error .notFound ∧
    (cancelBooking 60 db 7 "alice").1.bookings.map (fun x => (x.id, x.status)) =
      [(7, BookingStatus.cancelled)] ∧
    (cancelBooking 60 db 7 "alice").1.concerts = db.concerts := by
  exact ⟨rfl, rfl, rfl⟩

/-- Counterexample to claim C8 as stated: the REST `PUT /concerts/:id`
handler binds the request body — `available_tickets` included — into a
`model.Concert` and the repository `Update` writes that value to the store.
A stored available count of 40 becomes the client-supplied 999. -/
theorem c8_counterexample :
    let stored : Concert := {
      id := 1, name := "n", artist := "a", venue := "v",
      concertDate := 5, totalTickets := 100, availableTickets := 40, price := 10,
      bookingStartTime := 10, bookingEndTime := 1000, version := 1,
      createdAt := 0, updatedAt := 0 }
    let db : DB := { concerts := [stored], bookings := [], nextConcertId := 2, nextBookingId := 1 }
    let body : Concert := {
      id := 0, name := "n2", artist := "a2", venue := "v2",
      concertDate := 6, totalTickets := 100, availableTickets := 999, price := 10,
      bookingStartTime := 10, bookingEndTime := 1000, version := 1,
      createdAt := 0, updatedAt := 0 }
    (restUpdateConcert 50 db 1 body).2 = .ok () ∧
    (findConcert db 1).map Concert.availableTickets = some 40 ∧
    (findConcert (restUpdateConcert 50 db 1 body).1 1).map Concert.availableTickets =
      some 999 := by
  exact ⟨rfl, rfl, rfl⟩

/-- Claim C8 (amended): creation always stores `available = totalCapacity`
regardless of the supplied value, and the gRPC update path preserves the
stored available count; the REST update path, however, writes the
client-supplied `available_tickets` to the store (see the counterexample),
so the claim holds only for creation and gRPC updates. -/
theorem c8_available_not_from_client :
    (∀ (now : Int) (db : DB) (c : Concert) (db' : DB) (c' : Concert),
      createConcert now db c = (db', .ok c') →
      c'.availableTickets = c.totalTickets ∧ db'.concerts = db.concerts ++ [c']) ∧
    (∀ (now : Int) (db : DB) (req : UpdateConcertRequest) (db' : DB),
      grpcUpdateConcert now db req = (db', .ok ()) →
      (findConcert db' req.id).map Concert.availableTickets =
        (findConcert db req.id).map Concert.availableTickets) := by
  constructor
  · intro now db c db' c' h
    cases hval : validateConcert now c with
    | some e =>
      simp only [createConcert, hval] at h
      exact absurd (congrArg Prod.snd h) (by simp)
    | none =>
      simp only [createConcert, hval, concertCreate] at h
      obtain ⟨rfl, hok⟩ := Prod.mk.injEq .. ▸ h
      injection hok with hok
      subst hok
      exact ⟨rfl, rfl⟩
  · intro now db req db' h
    unfold grpcUpdateConcert at h
    cases hfind : findConcert db req.id with
    | none => simp [concertGetByID, hfind] at h
    | some current =>
      simp only [concertGetByID, hfind] at h
      unfold updateConcert at h
      cases hval : validateConcert now _ with
      | some e => rw [hval] at h; exact absurd h (by simp)
      | none =>
        rw [hval] at h
        simp only [concertGetByID] at h
        rw [show findConcert db req.id = some current from hfind] at h
        rcases hupd : concertUpdate now db _ with ⟨db2, r2⟩
        rw [hupd] at h
        cases r2 with
        | error e => simp at h
        | ok cret =>
          obtain ⟨rfl, -⟩ : db2 = db' ∧ True := by
            simp only at h
            exact ⟨congrArg Prod.fst h, trivial⟩
          have hres := concertUpdate_preserves_available now db _ db2 (.ok cret) hupd
            current hfind rfl
          dsimp only at hres
          rw [hfind] at hres
          exact hres

/-- Witness for C8 (amended): a concrete creation and a concrete gRPC
update. -/
theorem c8_witness :
    let cW : Concert := {
      id := 0, name := "n", artist := "a", venue := "v",
      concertDate := 5, totalTickets := 100, availableTickets := 7, price := 10,
      bookingStartTime := 100, bookingEndTime := 1000, version := 0,
      createdAt := 0, updatedAt := 0 }
    let cW' : Concert := {
      id := 1, name := "n", artist := "a", venue := "v",
      concertDate := 5, totalTickets := 100, availableTickets := 100, price := 10,
      bookingStartTime := 100, bookingEndTime := 1000, version := 1,
      createdAt := 5, updatedAt := 5 }
    let dbW : DB := { concerts := [], bookings := [], nextConcertId := 1, nextBookingId := 1 }
    let stored : Concert := {
      id := 1, name := "n", artist := "a", venue := "v",
      concertDate := 5, totalTickets := 100, availableTickets := 40, price := 10,
      bookingStartTime := 10, bookingEndTime := 1000, version := 1,
      createdAt := 0, updatedAt := 0 }
    let gdb : DB := { concerts := [stored], bookings := [], nextConcertId := 2, nextBookingId := 1 }
    let greq : UpdateConcertRequest := {
      id := 1, name := "n2", artist := "a2", venue := "v2", concertDate := 6,
      totalTickets := 150, price := 10, bookingStartTime := 10, bookingEndTime := 1000,
      version := 1 }
    cW'.availableTickets = cW.totalTickets ∧
    (createConcert 5 dbW cW).1.concerts = dbW.concerts ++ [cW'] ∧
    (findConcert (grpcUpdateConcert 50 gdb greq).1 greq.id).map Concert.availableTickets =
      (findConcert gdb greq.id).map Concert.availableTickets := by
  intro cW cW' dbW stored gdb greq
  obtain ⟨h1, h2⟩ := c8_available_not_from_client.1 5 dbW cW _ cW' rfl
  exact ⟨h1, h2, c8_available_not_from_client.2 50 gdb greq _ rfl⟩

/-- Claim C9: booking `n` tickets and then successfully cancelling that
booking as the same user returns the concert's `available` to exactly its
pre-booking value.  (The booking-id bound is the freshness discipline of the
`SERIAL` id column.) -/
theorem c9_book_cancel_roundtrip
    (now1 now2 : Int) (svc : BookingService) (db db1 db2 : DB)
    (req : BookingRequest) (bk : Booking) (c0 c2 : Concert)
    (hids : ∀ b ∈ db.bookings, b.id < db.nextBookingId)
    (hbook : bookTickets now1 svc db req = (db1, .ok bk))
    (hcancel : cancelBooking now2 db1 bk.id req.userID = (db2, .ok ()))
    (hc0 : findConcert db req.concertID = some c0)
    (hc2 : findConcert db2 req.concertID = some c2) :
    c2.availableTickets = c0.availableTickets := by
  obtain ⟨c, hfc, hav, hbk, hdb1⟩ := bookTickets_ok now1 svc db req db1 bk hbook
  obtain rfl : c = c0 := by rw [hfc] at hc0; simpa using hc0
  have hcid : c.id = req.concertID := by simpa using List.find?_some hfc
  subst hbk
  subst hdb1
  have hfb : findBooking
      { db with
        concerts := db.concerts.map (fun x =>
          if x.id = req.concertID then
            { x with
                availableTickets := x.availableTickets - req.ticketCount,
                version := x.version + 1, updatedAt := now1 }
          else x),
        bookings := db.bookings ++ [{
          id := db.nextBookingId, concertID := req.concertID, userID := req.userID,
          ticketCount := req.ticketCount, bookingTime := now1, status := .confirmed,
          createdAt := now1, updatedAt := now1 }],
        nextBookingId := db.nextBookingId + 1 }
      (db.nextBookingId) = some {
        id := db.nextBookingId, concertID := req.concertID, userID := req.userID,
        ticketCount := req.ticketCount, bookingTime := now1, status := .confirmed,
        createdAt := now1, updatedAt := now1 } := by
    unfold findBooking
    rw [show ({ db with
        concerts := db.concerts.map (fun x =>
          if x.id = req.concertID then
            { x with
                availableTickets := x.availableTickets - req.ticketCount,
                version := x.version + 1, updatedAt := now1 }
          else x),
        bookings := db.bookings ++ [{
          id := db.nextBookingId, concertID := req.concertID, userID := req.userID,
          ticketCount := req.ticketCount, bookingTime := now1, status := .confirmed,
          createdAt := now1, updatedAt := now1 }],
        nextBookingId := db.nextBookingId + 1 } : DB).bookings =
      db.bookings ++ [{
          id := db.nextBookingId, concertID := req.concertID, userID := req.userID,
          ticketCount := req.ticketCount, bookingTime := now1, status := .confirmed,
          createdAt := now1, updatedAt := now1 }] from rfl]
    rw [find?_append_left_none _ db.bookings _ (fun x hx => by
      have hlt := hids x hx
      simp only [decide_eq_false_iff_not]
      omega)]
    simp
  simp only [cancelBooking, bookingGetByID, hfb] at hcancel
  rw [if_neg (by simp)] at hcancel
  rw [if_neg (by simp)] at hcancel
  have hfind1 : findConcert (bookingUpdate now2 ({ db with
      concerts := db.concerts.map (fun x =>
        if x.id = req.concertID then
          { x with
              availableTickets := x.availableTickets - req.ticketCount,
              version := x.version + 1, updatedAt := now1 }
        else x),
      bookings := db.bookings ++ [{
        id := db.nextBookingId, concertID := req.concertID, userID := req.userID,
        ticketCount := req.ticketCount, bookingTime := now1, status := .confirmed,
        createdAt := now1, updatedAt := now1 }],
      nextBookingId := db.nextBookingId + 1 } : DB)
      { id := db.nextBookingId, concertID := req.concertID, userID := req.userID,
        ticketCount := req.ticketCount, bookingTime := now1, status := .cancelled,
        createdAt := now1, updatedAt := now1 }) req.concertID =
      some { c with
        availableTickets := c.availableTickets - req.ticketCount,
        version := c.version + 1, updatedAt := now1 } := by
    show (db.concerts.map (fun x =>
        if x.id = req.concertID then
          { x with
              availableTickets := x.availableTickets - req.ticketCount,
              version := x.version + 1, updatedAt := now1 }
        else x)).find? (fun x => decide (x.id = req.concertID)) =
      some { c with
        availableTickets := c.availableTickets - req.ticketCount,
        version := c.version + 1, updatedAt := now1 }
    rw [find?_map_congr _ _ (fun x => by split <;> rfl) db.concerts]
    rw [show db.concerts.find? (fun x => decide (x.id = req.concertID)) = some c from hfc]
    simp [hcid]
  simp only [concertGetForUpdate, hfind1] at hcancel
  split at hcancel
  · exact absurd (congrArg Prod.snd hcancel) (by simp)
  · rename_i db2x val heq
    obtain rfl : db2x = db2 := congrArg Prod.fst hcancel
    obtain ⟨cu, hcu, hcuav⟩ := findConcert_concertUpdate_self now2 _ _ _ _ heq
      { c with
        availableTickets := c.availableTickets - req.ticketCount,
        version := c.version + 1, updatedAt := now1 }
      (by
        show findConcert _ c.id = _
        conv_lhs => rw [hcid]
        exact hfind1)
      rfl
    rw [show ({ c with
        availableTickets := c.availableTickets - req.ticketCount,
        version := c.version + 1, updatedAt := now1 } : Concert).id = c.id from rfl,
      hcid] at hcu
    obtain rfl : cu = c2 := by rw [hcu] at hc2; simpa using hc2
    rw [hcuav]
    show c.availableTickets - req.ticketCount + req.ticketCount = c.availableTickets
    omega

/-- Witness for C9 at a concrete input: booking 5 of 100 tickets and then
cancelling restores `available = 100`. -/
theorem c9_witness :
    let c : Concert := {
      id := 1, name := "n", artist := "a", venue := "v",
      concertDate := 5, totalTickets := 100, availableTickets := 100, price := 10,
      bookingStartTime := 10, bookingEndTime := 1000, version := 1,
      createdAt := 0, updatedAt := 0 }
    let db : DB := { concerts := [c], bookings := [], nextConcertId := 2, nextBookingId := 1 }
    let req : BookingRequest := { concertID := 1, userID := "u", ticketCount := 5 }
    let bk : Booking := {
      id := 1, concertID := 1, userID := "u", ticketCount := 5,
      bookingTime := 50, status := .confirmed, createdAt := 50, updatedAt := 50 }
    let db1 : DB := {
      concerts := [{ c with availableTickets := 95, version := 2, updatedAt := 50 }],
      bookings := [bk], nextConcertId := 2, nextBookingId := 2 }
    let db2 : DB := {
      concerts := [{ c with availableTickets := 100, version := 3, updatedAt := 60 }],
      bookings := [{ bk with status := .cancelled, updatedAt := 60 }],
      nextConcertId := 2, nextBookingId := 2 }
    ({ c with availableTickets := 100, version := 3, updatedAt := 60 } : Concert).availableTickets =
      c.availableTickets := by
  intro c db req bk db1 db2
  exact c9_book_cancel_roundtrip 50 60 (newBookingService 3) db db1 db2 req bk c
    { c with availableTickets := 100, version := 3, updatedAt := 60 }
    (by simp) rfl rfl rfl rfl

/-- The initial (empty) store satisfies the invariant. -/
theorem dbinv_init :
    DBInv { concerts := [], bookings := [], nextConcertId := 1, nextBookingId := 1 } := by
  constructor <;> simp [confirmedTickets]

/-- Every state reachable through concert creation, booking and cancellation
satisfies the invariant. -/
theorem reachable_inv (db : DB) (h : Reachable db) : DBInv db := by
  induction h with
  | init => exact dbinv_init
  | create now c db db' r hr hstep ih => exact createConcert_inv now db c db' r hstep ih
  | book now svc req db db' r hr hstep ih => exact bookTickets_inv now svc db req db' r hstep ih
  | cancel now bid uid db db' r hr hstep ih => exact cancelBooking_inv now db bid uid db' r hstep ih

/-- Counterexample to claim C3 as stated: concert update does not preserve
`available <= totalCapacity`.  From a reachable state (one freshly created
concert, `total = available = 100`), a gRPC update that lowers
`totalTickets` to 50 succeeds, preserves the stored `available = 100`, and
leaves `available > totalCapacity`. -/
theorem c3_counterexample :
    let c : Concert := {
      id := 0, name := "n", artist := "a", venue := "v",
      concertDate := 5, totalTickets := 100, availableTickets := 0, price := 10,
      bookingStartTime := 100, bookingEndTime := 1000, version := 0,
      createdAt := 0, updatedAt := 0 }
    let db1 : DB := {
      concerts := [{ c with
        id := 1, availableTickets := 100, version := 1, createdAt := 5, updatedAt := 5 }],
      bookings := [], nextConcertId := 2, nextBookingId := 1 }
    let req : UpdateConcertRequest := {
      id := 1, name := "n", artist := "a", venue := "v", concertDate := 5,
      totalTickets := 50, price := 10, bookingStartTime := 100, bookingEndTime := 1000,
      version := 1 }
    Reachable db1 ∧
    (grpcUpdateConcert 50 db1 req).2 = .ok () ∧
    (findConcert (grpcUpdateConcert 50 db1 req).1 1).map
      (fun cX => decide (cX.availableTickets ≤ cX.totalTickets)) = some false := by
  refine ⟨?_, rfl, rfl⟩
  exact Reachable.create 5 {
      id := 0, name := "n", artist := "a", venue := "v",
      concertDate := 5, totalTickets := 100, availableTickets := 0, price := 10,
      bookingStartTime := 100, bookingEndTime := 1000, version := 0,
      createdAt := 0, updatedAt := 0 }
    _ _ _ Reachable.init rfl

/-- Claim C3 (amended): in every state reachable through concert creation,
booking and cancellation, every concert satisfies
`0 <= available <= totalCapacity`; concert update is excluded because it can
break the upper bound (see the counterexample). -/
theorem c3_reachable_bounds (db : DB) (h : Reachable db) :
    ∀ c ∈ db.concerts, 0 ≤ c.availableTickets ∧
      c.availableTickets ≤ c.totalTickets := by
  intro c hc
  have hinv := reachable_inv db h
  obtain ⟨h1, h2⟩ := hinv.concertBounds c hc
  have h3 := confirmedTickets_nonneg db.bookings c.id (fun b hb => hinv.bookingPos b hb)
  exact ⟨h1, by omega⟩

/-- Witness for C3 (amended) at a concrete reachable state. -/
theorem c3_witness :
    let c : Concert := {
      id := 0, name := "n", artist := "a", venue := "v",
      concertDate := 5, totalTickets := 100, availableTickets := 0, price := 10,
      bookingStartTime := 100, bookingEndTime := 1000, version := 0,
      createdAt := 0, updatedAt := 0 }
    let db1 : DB := {
      concerts := [{ c with
        id := 1, availableTickets := 100, version := 1, createdAt := 5, updatedAt := 5 }],
      bookings := [], nextConcertId := 2, nextBookingId := 1 }
    ∀ cX ∈ db1.concerts, 0 ≤ cX.availableTickets ∧
      cX.availableTickets ≤ cX.totalTickets := by
  intro c db1
  exact c3_reachable_bounds db1 (Reachable.create 5 c _ _ _ Reachable.init rfl)

end ConcertApi
